import Mathlib

/-!
Verification of the tensorzero `provider-proxy` cache engine and the
`tensorzero-core` serde helpers, as a shallow embedding of
`src/provider-proxy/src/lib.rs` and `src/tensorzero-core/src/serde_util.rs`.

Conventions of the embedding:
* Machine bytes are `Nat` (always < 256 where they arise from encoders).
* `http::HeaderMap` is a list of (name, value) pairs; hyper stores header
  names lowercased, so names are lowercase strings and lookups use
  lowercase literals, mirroring the case-insensitive behaviour of the
  `http` crate.
* Rust panics (`expect` / `unwrap`) are `Fail.panic`; `anyhow` errors are
  `Fail.err`; fallible code returns `Except Fail`.
* External collaborators (tokio, the upstream HTTP client, the
  filesystem) are passed in as explicit values: `FsView` is the state of
  the file at the computed cache path, `UpstreamResult` the outcome of
  the upstream fetch.
-/

set_option autoImplicit false

/-- A rust panic (process-visible abort of the task) versus an `anyhow`
error that is returned as a `Result::Err`. -/
inductive Fail where
  | panic (msg : String)
  | err (msg : String)
  deriving Repr, DecidableEq

/-- UTF-8 encoding of a single character, mirroring Rust `str` bytes. -/
def utf8EncodeChar (c : Char) : List Nat :=
  let n := c.toNat
  if n < 128 then [n]
  else if n < 2048 then [192 + n / 64, 128 + n % 64]
  else if n < 65536 then [224 + n / 4096, 128 + (n / 64) % 64, 128 + n % 64]
  else [240 + n / 262144, 128 + (n / 4096) % 64, 128 + (n / 64) % 64, 128 + n % 64]

/-- UTF-8 bytes of a Rust `String` / `str`. -/
def utf8Encode (s : String) : List Nat :=
  (s.data.map utf8EncodeChar).flatten

/-- Whether a byte is a UTF-8 continuation byte (`0x80..=0xBF`). -/
def isContByte (b : Nat) : Bool := 128 ≤ b && b < 192

/-- Strict UTF-8 decoding, mirroring Rust `String::from_utf8`: rejects
overlong forms, surrogates and values above U+10FFFF. The fuel is a
step bound (one unit per decoded character); with fuel at least the
input length the `0` case is unreachable. -/
def utf8DecodeAux : Nat → List Nat → Option (List Char)
  | _, [] => some []
  | 0, _ :: _ => none
  | fuel + 1, b :: rest =>
    if b < 128 then
      (utf8DecodeAux fuel rest).map (fun cs => Char.ofNat b :: cs)
    else if b < 194 then none
    else if b < 224 then
      match rest with
      | b1 :: r =>
        if isContByte b1 then
          (utf8DecodeAux fuel r).map (fun cs => Char.ofNat ((b - 192) * 64 + (b1 - 128)) :: cs)
        else none
      | [] => none
    else if b < 240 then
      match rest with
      | b1 :: b2 :: r =>
        let lo1 := if b == 224 then 160 else 128
        let hi1 := if b == 237 then 160 else 192
        if (lo1 ≤ b1 && b1 < hi1) && isContByte b2 then
          (utf8DecodeAux fuel r).map
            (fun cs => Char.ofNat ((b - 224) * 4096 + (b1 - 128) * 64 + (b2 - 128)) :: cs)
        else none
      | _ => none
    else if b < 245 then
      match rest with
      | b1 :: b2 :: b3 :: r =>
        let lo1 := if b == 240 then 144 else 128
        let hi1 := if b == 244 then 144 else 192
        if ((lo1 ≤ b1 && b1 < hi1) && isContByte b2) && isContByte b3 then
          (utf8DecodeAux fuel r).map
            (fun cs =>
              Char.ofNat ((b - 240) * 262144 + (b1 - 128) * 4096 + (b2 - 128) * 64 + (b3 - 128)) :: cs)
        else none
      | _ => none
    else none

/-- Rust `String::from_utf8` on a collected body. -/
def utf8Decode? (l : List Nat) : Option String :=
  (utf8DecodeAux l.length l).map (fun cs => String.mk cs)

/-- Model of `http::HeaderValue::to_str` validity: succeeds exactly when every byte is
visible ASCII (32..=126) or a horizontal tab. -/
def isVisibleAscii (b : Nat) : Bool := (32 ≤ b && b < 127) || b == 9

/-- Model of `HeaderValue::to_str`, with `Ok` mapped to `some`. -/
def headerToStr (v : List Nat) : Option String :=
  if v.all isVisibleAscii then some (String.mk (v.map Char.ofNat)) else none

/-- One header entry: lowercase name and raw value bytes. -/
abbrev Header := String × List Nat

/-- Model of `HeaderMap::get`: first value stored under the name. -/
def getHeader : List Header → String → Option (List Nat)
  | [], _ => none
  | p :: rest, n => if p.1 == n then some p.2 else getHeader rest n

/-- Drop every entry with the given name. -/
def removeHeader : List Header → String → List Header
  | [], _ => []
  | p :: rest, n => if p.1 == n then removeHeader rest n else p :: removeHeader rest n

/-- Model of `HeaderMap::insert`: replace the first entry with that name in place
(dropping any further values under the name), or append if absent. -/
def insertHeader : List Header → String → List Nat → List Header
  | [], n, v => [(n, v)]
  | p :: rest, n, v =>
    if p.1 == n then (n, v) :: removeHeader rest n
    else p :: insertHeader rest n v

/-- Model of `HeaderMap::contains_key`. -/
def containsHeader (hs : List Header) (n : String) : Bool :=
  hs.any (fun p => p.1 == n)

/-- Pointwise update of the value stored under `n`; equal to
`insertHeader` on maps without duplicate names that contain `n`. -/
def setHeader (hs : List Header) (n : String) (v : List Nat) : List Header :=
  hs.map (fun p => if p.1 == n then (p.1, v) else p)

/-- Generic boolean prefix test on lists (Rust `starts_with` on bytes). -/
def isPrefixB {α : Type} [BEq α] : List α → List α → Bool
  | [], _ => true
  | _ :: _, [] => false
  | a :: as, b :: bs => a == b && isPrefixB as bs

/-- Rust `str::starts_with` modelled on the character lists. -/
def strStartsWith (s p : String) : Bool := isPrefixB p.data s.data

/-- Rust `eq_ignore_ascii_case` on strings. -/
def asciiLowerChar (c : Char) : Char :=
  if 'A' ≤ c && c ≤ 'Z' then Char.ofNat (c.toNat + 32) else c

/-- ASCII-lowercased copy of a string. -/
def asciiLower (s : String) : String := String.mk (s.data.map asciiLowerChar)

/-- Model of `str::eq_ignore_ascii_case`. -/
def eqIgnoreAsciiCase (a b : String) : Bool := asciiLower a == asciiLower b

/-- Request URI: the host component (`uri.host()`) plus the remainder,
which the cache key only needs as an opaque serialized fragment. -/
structure Uri where
  host : Option String
  rest : String
  deriving Repr, DecidableEq

/-- An inbound HTTP request with a fully collected body
(`hyper::Request<Bytes>`). Extensions carry no wire data; they are
cleared before hashing. -/
structure Request where
  method : String
  uri : Uri
  version : String
  headers : List Header
  body : List Nat
  extensions : List String
  deriving Repr, DecidableEq

/-- An HTTP response with a fully collected body. Response extensions
are cleared before serialization and are not modelled. -/
structure Response where
  status : Nat
  version : String
  headers : List Header
  body : List Nat
  deriving Repr, DecidableEq

/-- Cache mode from the clap `Args`. -/
inductive CacheMode where
  | ReadOnly
  | ReadWrite
  | ReadOldWriteNew
  deriving Repr, DecidableEq

/-- The CLI `Args` relevant to request handling. -/
structure Args where
  cache_path : String
  sanitize_bearer_auth : Bool
  sanitize_aws_sigv4 : Bool
  sanitize_model_headers : Bool
  mode : CacheMode
  deriving Repr, DecidableEq

/-! ## SHA-256 (the `sha2` crate dependency of `hash_value`)

Implemented over `Nat` with explicit reduction modulo `2 ^ 32`; bitwise
operations are written as fuel-bounded arithmetic recursions so that the
kernel can evaluate them on concrete inputs. -/

/-- Truncate to a 32-bit word. -/
def w32 (n : Nat) : Nat := n % 4294967296

/-- Bitwise combination of two words, one bit at a time;
`f` receives the two current low bits. -/
def bitZip (f : Nat → Nat → Nat) : Nat → Nat → Nat → Nat
  | 0, _, _ => 0
  | fuel + 1, a, b => f (a % 2) (b % 2) + 2 * bitZip f fuel (a / 2) (b / 2)

/-- Bitwise XOR of 32-bit words. -/
def xor32 (a b : Nat) : Nat := bitZip (fun x y => (x + y) % 2) 32 a b

/-- Bitwise AND of 32-bit words. -/
def and32 (a b : Nat) : Nat := bitZip (fun x y => x * y) 32 a b

/-- Bitwise complement of a word `< 2 ^ 32`. -/
def not32 (a : Nat) : Nat := 4294967295 - a

/-- Rotate a 32-bit word right by `n` bits. -/
def rotr32 (n a : Nat) : Nat := w32 (a / 2 ^ n + a % 2 ^ n * 2 ^ (32 - n))

/-- Logical right shift of a 32-bit word. -/
def shr32 (n a : Nat) : Nat := a / 2 ^ n

/-- SHA-256 round constants. -/
def sha256K : List Nat :=
  [1116352408, 1899447441, 3049323471, 3921009573, 961987163, 1508970993,
   2453635748, 2870763221, 3624381080, 310598401, 607225278, 1426881987,
   1925078388, 2162078206, 2614888103, 3248222580, 3835390401, 4022224774,
   264347078, 604807628, 770255983, 1249150122, 1555081692, 1996064986,
   2554220882, 2821834349, 2952996808, 3210313671, 3336571891, 3584528711,
   113926993, 338241895, 666307205, 773529912, 1294757372, 1396182291,
   1695183700, 1986661051, 2177026350, 2456956037, 2730485921, 2820302411,
   3259730800, 3345764771, 3516065817, 3600352804, 4094571909, 275423344,
   430227734, 506948616, 659060556, 883997877, 958139571, 1322822218,
   1537002063, 1747873779, 1955562222, 2024104815, 2227730452, 2361852424,
   2428436474, 2756734187, 3204031479, 3329325298]

/-- SHA-256 initial hash state. -/
def sha256H0 : List Nat :=
  [1779033703, 3144134277, 1013904242, 2773480762,
   1359893119, 2600822924, 528734635, 1541459225]

/-- Pad a message to a multiple of 64 bytes with `0x80`, zeros, and the
64-bit big-endian bit length. -/
def sha256Pad (msg : List Nat) : List Nat :=
  let len := msg.length
  let zeroCount := (119 - len % 64) % 64
  let bitLen := len * 8
  msg ++ [128] ++ List.replicate zeroCount 0 ++
    [bitLen / 2 ^ 56 % 256, bitLen / 2 ^ 48 % 256, bitLen / 2 ^ 40 % 256,
     bitLen / 2 ^ 32 % 256, bitLen / 2 ^ 24 % 256, bitLen / 2 ^ 16 % 256,
     bitLen / 2 ^ 8 % 256, bitLen % 256]

/-- Split a list into chunks of 64 (fuel-bounded; one unit of fuel per
chunk, so fuel equal to the length always suffices). -/
def chunks64Aux : Nat → List Nat → List (List Nat)
  | _, [] => []
  | 0, _ :: _ => []
  | fuel + 1, l => l.take 64 :: chunks64Aux fuel (l.drop 64)

/-- Split a list into chunks of 64. -/
def chunks64 (l : List Nat) : List (List Nat) :=
  chunks64Aux l.length l

/-- Big-endian 32-bit words from groups of four bytes. -/
def bytesToWords : List Nat → List Nat
  | b0 :: b1 :: b2 :: b3 :: rest =>
    (((b0 * 256 + b1) * 256 + b2) * 256 + b3) :: bytesToWords rest
  | _ => []

/-- Extend 16 schedule words to 64. -/
def sha256Extend (w : List Nat) : Nat → List Nat
  | 0 => w
  | n + 1 =>
    let w := sha256Extend w n
    let i := w.length
    let w15 := w.getD (i - 15) 0
    let w2 := w.getD (i - 2) 0
    let s0 := xor32 (xor32 (rotr32 7 w15) (rotr32 18 w15)) (shr32 3 w15)
    let s1 := xor32 (xor32 (rotr32 17 w2) (rotr32 19 w2)) (shr32 10 w2)
    w ++ [w32 (w.getD (i - 16) 0 + s0 + w.getD (i - 7) 0 + s1)]

/-- One round of the SHA-256 compression function. -/
def sha256Round (st : List Nat) (kw : Nat) : List Nat :=
  match st with
  | [a, b, c, d, e, f, g, h] =>
    let s1 := xor32 (xor32 (rotr32 6 e) (rotr32 11 e)) (rotr32 25 e)
    let ch := xor32 (and32 e f) (and32 (not32 (w32 e)) g)
    let t1 := w32 (h + s1 + ch + kw)
    let s0 := xor32 (xor32 (rotr32 2 a) (rotr32 13 a)) (rotr32 22 a)
    let mj := xor32 (xor32 (and32 a b) (and32 a c)) (and32 b c)
    let t2 := w32 (s0 + mj)
    [w32 (t1 + t2), a, b, c, w32 (d + t1), e, f, g]
  | other => other

/-- Compress one 64-byte chunk into the running hash state. -/
def sha256Chunk (hst : List Nat) (chunk : List Nat) : List Nat :=
  let w := sha256Extend (bytesToWords chunk) 48
  let kw := List.zipWith (fun k wi => w32 (k + wi)) sha256K w
  let st := kw.foldl sha256Round hst
  List.zipWith (fun x y => w32 (x + y)) hst st

/-- SHA-256 digest (32 bytes) of a byte list. -/
def sha256 (msg : List Nat) : List Nat :=
  let finalState := (chunks64 (sha256Pad msg)).foldl sha256Chunk sha256H0
  (finalState.map (fun x => [x / 2 ^ 24 % 256, x / 2 ^ 16 % 256, x / 2 ^ 8 % 256, x % 256])).flatten

/-- Lowercase hex digit. -/
def hexDigit (n : Nat) : Char :=
  if n < 10 then Char.ofNat (48 + n) else Char.ofNat (87 + n)

/-- Model of `hex::encode` of a byte list. -/
def hexEncode (bs : List Nat) : String :=
  String.mk ((bs.map (fun b => [hexDigit (b / 16), hexDigit (b % 16)])).flatten)

/-! ## Canonical JSON serialization (`http_serde_ext` + `serde_json`)

The exact JSON shape produced by the external `http_serde_ext` crate is
not part of this repository; what the cache key depends on is that it is
a deterministic byte-stable function of (method, uri, version, headers,
body). The encoders below provide such a canonical form. -/

/-- JSON string escaping in the style of `serde_json`. -/
def jsonEscapeChar (c : Char) : List Char :=
  if c = '"' then ['\\', '"']
  else if c = '\\' then ['\\', '\\']
  else if c.toNat < 32 then
    ['\\', 'u', '0', '0', hexDigit (c.toNat / 16), hexDigit (c.toNat % 16)]
  else [c]

/-- Escape and quote a string as a JSON string literal. -/
def jsonString (s : String) : String :=
  String.mk ('"' :: (s.data.map jsonEscapeChar).flatten ++ ['"'])

/-- Comma-separated concatenation. -/
def commaSep : List String → String
  | [] => ""
  | [x] => x
  | x :: rest => x ++ "," ++ commaSep rest

/-- JSON array of numbers for raw bytes. -/
def bytesJson (bs : List Nat) : String :=
  "[" ++ commaSep (bs.map toString) ++ "]"

/-- A header value serializes as a JSON string when it is visible ASCII
(the `HeaderValue` serializer goes through `to_str`), and as a raw byte
array otherwise. -/
def headerValJson (v : List Nat) : String :=
  match headerToStr v with
  | some s => jsonString s
  | none => bytesJson v

/-- Header list as a JSON array of name/value pairs (order preserved). -/
def headersJson (hs : List Header) : String :=
  "[" ++ commaSep (hs.map (fun p => "[" ++ jsonString p.1 ++ "," ++ headerValJson p.2 ++ "]")) ++ "]"

/-- Display form of the request URI. -/
def uriToString (u : Uri) : String :=
  match u.host with
  | some h => h ++ u.rest
  | none => u.rest

/-- Canonical JSON text of a (sanitized) request: the composition of
`http_serde_ext::request::serialize` and `serde_json::to_string` that
`check_cache` hashes. Extensions cannot be serialized and are absent. -/
def serializeRequest (r : Request) : String :=
  "\x7b\"method\":" ++ jsonString r.method ++
    ",\"uri\":" ++ jsonString (uriToString r.uri) ++
    ",\"version\":" ++ jsonString r.version ++
    ",\"headers\":" ++ headersJson r.headers ++
    ",\"body\":" ++ bytesJson r.body ++ "\x7d"

/-- Model of `hash_value`: SHA-256 of the UTF-8 bytes of the JSON text,
hex-encoded. -/
def hash_value (jsonText : String) : String :=
  hexEncode (sha256 (utf8Encode jsonText))

/-! ## Request sanitization (`check_cache`, lib.rs lines 131-182) -/

/-- The replacement value used by all sanitizers for AWS SigV4 and model
headers. -/
def proxyToken : List Nat := utf8Encode "TENSORZERO_PROVIDER_PROXY_TOKEN"

/-- The replacement `Authorization` value of the bearer sanitizer. -/
def bearerToken : List Nat := utf8Encode "Bearer TENSORZERO_PROVIDER_PROXY_TOKEN"

/-- The header names scrubbed by the AWS SigV4 sanitizer, in source
order. -/
def awsHeaderNames : List String :=
  ["authorization", "x-amz-date", "amz-sdk-invocation-id", "user-agent",
   "x-amz-user-agent", "amz-sdk-request"]

/-- The model header names (`Modal-Key`, `Modal-Secret`), lowercased as
stored by `http`. -/
def modelHeaderNames : List String := ["modal-key", "modal-secret"]

/-- Whether `HeaderValue::to_str().unwrap().starts_with("Bearer ")`
would hold; `false` when the value is not visible ASCII (in which case
the source panics instead). -/
def startsBearerB (v : List Nat) : Bool :=
  match headerToStr v with
  | some s => strStartsWith s "Bearer "
  | none => false

/-- The bearer-auth sanitizer (lib.rs lines 133-143): if `Authorization`
is present and its value starts with `Bearer `, replace the whole value;
`to_str().unwrap()` panics on a non-visible-ASCII value. -/
def bearerPass (flag : Bool) (hs : List Header) : Except Fail (List Header) :=
  if flag then
    match getHeader hs "authorization" with
    | some v =>
      match headerToStr v with
      | some s =>
        if strStartsWith s "Bearer " then .ok (insertHeader hs "authorization" bearerToken)
        else .ok hs
      | none => .error (.panic "called Result::unwrap on an Err value: ToStrError")
    | none => .ok hs
  else .ok hs

/-- Replace each header of `names` that is present with `proxyToken`
(the shared loop of the AWS SigV4 and model-header sanitizers). -/
def scrubPresent (hs : List Header) (names : List String) : List Header :=
  names.foldl (fun h n => if containsHeader h n then insertHeader h n proxyToken else h) hs

/-- The AWS SigV4 sanitizer (lib.rs lines 144-162). -/
def awsPass (flag : Bool) (hs : List Header) : List Header :=
  if flag then scrubPresent hs awsHeaderNames else hs

/-- The model-header sanitizer (lib.rs lines 163-174). -/
def modelPass (flag : Bool) (hs : List Header) : List Header :=
  if flag then scrubPresent hs modelHeaderNames else hs

/-- All three sanitizers in source order. -/
def sanitizeHeaders (args : Args) (hs : List Header) : Except Fail (List Header) :=
  match bearerPass args.sanitize_bearer_auth hs with
  | .error e => .error e
  | .ok t => .ok (modelPass args.sanitize_model_headers (awsPass args.sanitize_aws_sigv4 t))

/-- Stage of `check_cache` up to the sanitized request: clear extensions, then
run the sanitizers. -/
def sanitizeRequest (args : Args) (r : Request) : Except Fail Request :=
  match sanitizeHeaders args r.headers with
  | .error e => .error e
  | .ok t => .ok { r with headers := t, extensions := [] }

/-- Stage of `check_cache` up to the on-disk filename
`format!("{}-{}", request.uri().host().expect("Missing request host"), hash)`:
serialization, hashing, and the host panic (lib.rs lines 175-182). -/
def cacheFilename (args : Args) (r : Request) : Except Fail String :=
  match sanitizeRequest args r with
  | .error e => .error e
  | .ok s =>
    let hash := hash_value (serializeRequest s)
    match r.uri.host with
    | some h => .ok (h ++ "-" ++ hash)
    | none => .error (.panic "Missing request host")

/-! ## Cache write (`save_cache_body`, lib.rs lines 58-116) -/

/-- Body encoding of the on-disk entry: a JSON string when the raw body
bytes are valid UTF-8, otherwise a JSON byte array (the untagged
`BodyKind` of the source). -/
inductive BodyKind where
  | bytes (bs : List Nat)
  | str (s : String)
  deriving Repr, DecidableEq

/-- The response data serialized to the on-disk cache entry, before JSON
encoding. -/
structure SavedEntry where
  status : Nat
  version : String
  headers : List Header
  body : BodyKind
  deriving Repr, DecidableEq

/-- Reconstruction of the response to serialize: choose the body
encoding by attempting `String::from_utf8` (lib.rs lines 87-90);
extensions are cleared. -/
def mkSavedEntry (resp : Response) : SavedEntry :=
  { status := resp.status, version := resp.version, headers := resp.headers,
    body :=
      match utf8Decode? resp.body with
      | some s => .str s
      | none => .bytes resp.body }

/-- Decide what `save_cache_body` persists: `none` when skipped because
the content type begins with `image/` or `application/pdf` (lib.rs lines
68-78); panics when the content type is not visible ASCII
(`content_type.to_str().unwrap()`). -/
def saveCacheBody (resp : Response) : Except Fail (Option SavedEntry) :=
  match getHeader resp.headers "content-type" with
  | some ct =>
    match headerToStr ct with
    | none => .error (.panic "called Result::unwrap on an Err value: ToStrError")
    | some s =>
      if strStartsWith s "image/" || strStartsWith s "application/pdf" then .ok none
      else .ok (some (mkSavedEntry resp))
  | none => .ok (some (mkSavedEntry resp))

/-- JSON form of the entry body. -/
def bodyKindJson : BodyKind → String
  | .str s => jsonString s
  | .bytes bs => bytesJson bs

/-- JSON text of the on-disk entry (model of
`http_serde_ext::response::serialize` + `serde_json::to_string`). -/
def entryJson (e : SavedEntry) : String :=
  "\x7b\"status\":" ++ toString e.status ++
    ",\"version\":" ++ jsonString e.version ++
    ",\"headers\":" ++ headersJson e.headers ++
    ",\"body\":" ++ bodyKindJson e.body ++ "\x7d"

/-- Filesystem placement relevant to the write protocol:
`tempfile::NamedTempFile::new()` creates the temporary file in the OS
temp directory, whose filesystem is `tempFilesystem`; the final cache
path lives on `finalFilesystem`. `persist` (a bare `rename(2)`) only
succeeds within one filesystem. -/
structure WriteEnv where
  tempFilesystem : Nat
  finalFilesystem : Nat
  deriving Repr, DecidableEq

/-- Full write path of `save_cache_body` (lib.rs lines 98-115): create a
temp file in the OS temp directory, write the JSON text then `"\n"`, and
rename onto the final path. Returns the content that ends up at the
final path (`none` when the entry was skipped); the rename errors with
`EXDEV` when the temp directory does not share a filesystem with the
cache path. -/
def saveCacheWrite (env : WriteEnv) (resp : Response) : Except Fail (Option String) :=
  match saveCacheBody resp with
  | .error e => .error e
  | .ok none => .ok none
  | .ok (some e) =>
    let content := entryJson e ++ "\n"
    if env.tempFilesystem == env.finalFilesystem then .ok (some content)
    else .error (.err "Failed to rename tempfile: Invalid cross-device link (os error 18)")

/-! ## Cache read policy and `check_cache` outcome (lib.rs lines 121-278) -/

/-- State of the file at the computed cache path: whether
`path.exists()`, its modification time (`none` models a metadata read
failure), and the stored response as parsed from the file (`none`
models an unreadable or corrupt file). -/
structure FsView where
  fileExists : Bool
  mtime : Option Nat
  stored : Option Response
  deriving Repr, DecidableEq

/-- Outcome of the upstream fetch performed on a miss (the `missing`
closure handed to `check_cache`). -/
inductive UpstreamResult where
  | ok (resp : Response)
  | err (msg : String)
  deriving Repr, DecidableEq

/-- Name of the cache indicator header. -/
def cacheHeaderName : String := "x-tensorzero-provider-proxy-cache"

/-- Insert the cache indicator header with value `true` or `false`
(lib.rs line 276). -/
def withCacheFlag (resp : Response) (hit : Bool) : Response :=
  { resp with
    headers := insertHeader resp.headers cacheHeaderName (utf8Encode (if hit then "true" else "false")) }

/-- Model of `StatusCode::is_success` (2xx). -/
def is2xxB (status : Nat) : Bool := 200 ≤ status && status < 300

/-- The `use_cache` closure guarded by `path.exists()` (lib.rs lines
187-199): in `ReadOldWriteNew` the file is used only when its mtime is
at most the proxy start time; a metadata failure propagates as an error
through the `?`. -/
def hitDecision (startTime : Nat) (args : Args) (fs : FsView) : Except Fail Bool :=
  if fs.fileExists then
    match args.mode with
    | .ReadOnly => .ok true
    | .ReadWrite => .ok true
    | .ReadOldWriteNew =>
      match fs.mtime with
      | some t => .ok (decide (t ≤ startTime))
      | none => .error (.err "Failed to read cache file metadata")
  else .ok false

/-- What `check_cache` produces for one request: the response handed
back to the client, whether it was a cache hit, and the entry (if any)
that the post-stream callback hands to `save_cache_body` for writing.
Write failures are logged and swallowed inside `spawn_blocking`, so they
never affect the response: a failed or skipped save yields
`written = none`. -/
structure Outcome where
  response : Response
  cacheHit : Bool
  written : Option SavedEntry
  deriving Repr, DecidableEq

/-- The write-mode switch of the miss path (lib.rs lines 239-243). -/
def writeOnMiss (mode : CacheMode) : Bool :=
  match mode with
  | .ReadOnly => false
  | .ReadWrite => true
  | .ReadOldWriteNew => true

/-- Model of `check_cache` (lib.rs lines 121-278): sanitize and hash the
request (with its possible panics), decide hit or miss, on a hit decode
the stored file, on a miss consult upstream (a fetch error becomes a
502 response), and on a successful (2xx) response stream it through the
body collector whose completion callback performs the cache write. -/
def checkCacheOutcome (startTime : Nat) (args : Args) (r : Request) (fs : FsView)
    (up : UpstreamResult) : Except Fail Outcome :=
  match cacheFilename args r with
  | .error e => .error e
  | .ok _fname =>
    match hitDecision startTime args fs with
    | .error e => .error e
    | .ok true =>
      match fs.stored with
      | some resp => .ok { response := withCacheFlag resp true, cacheHit := true, written := none }
      | none => .error (.err "Failed to read or deserialize cache file")
    | .ok false =>
      let resp :=
        match up with
        | .ok resp => resp
        | .err m =>
          { status := 502, version := "HTTP/1.1", headers := [],
            body := utf8Encode ("Failed to forward request: " ++ m) }
      if is2xxB resp.status then
        let written :=
          if writeOnMiss args.mode then
            match saveCacheBody resp with
            | .ok e => e
            | .error _ => none
          else none
        .ok { response := withCacheFlag resp false, cacheHit := false, written := written }
      else
        .ok { response := withCacheFlag resp false, cacheHit := false, written := none }

/-! ## Validation gates and the per-request service (lib.rs lines 315-430) -/

/-- Model of `is_openrouter_request`. -/
def isOpenrouterRequest (u : Uri) : Bool :=
  match u.host with
  | some h => eqIgnoreAsciiCase h "openrouter.ai"
  | none => false

/-- Whether `X-Title: TensorZero` is present with exact byte equality. -/
def hasTitleB (hs : List Header) : Bool :=
  match getHeader hs "x-title" with
  | some v => v == utf8Encode "TensorZero"
  | none => false

/-- Whether `HTTP-Referer: https://www.tensorzero.com/` is present with
exact byte equality. -/
def hasRefererB (hs : List Header) : Bool :=
  match getHeader hs "http-referer" with
  | some v => v == utf8Encode "https://www.tensorzero.com/"
  | none => false

/-- The diagnostic listing of the missing or incorrect OpenRouter
headers (lib.rs lines 380-386). -/
def openrouterMissingStr (hs : List Header) : String :=
  if !hasTitleB hs && !hasRefererB hs then "X-Title and HTTP-Referer"
  else if !hasTitleB hs then "X-Title"
  else "HTTP-Referer"

/-- Distinct header names in first-occurrence order (`HeaderMap::keys`
yields each name once; the list model uses insertion order). -/
def dedupFirstAux : List String → List String → List String
  | [], _ => []
  | x :: xs, seen =>
    if seen.contains x then dedupFirstAux xs seen else x :: dedupFirstAux xs (x :: seen)

/-- Number of values stored under a name (`get_all(name).iter().count()`). -/
def countName (hs : List Header) (n : String) : Nat :=
  (hs.map Prod.fst).count n

/-- Model of `find_duplicate_header`: the first key carrying more than
one value. -/
def findDuplicateHeader (hs : List Header) : Option String :=
  (dedupFirstAux (hs.map Prod.fst) []).find? (fun n => decide (2 ≤ countName hs n))

/-- What the service closure in `run_server` produces for one request:
the response, whether `check_cache` was reached, whether the upstream
was consulted, and the entry queued for writing. -/
structure HandlerOutcome where
  response : Response
  cacheLookup : Bool
  forwarded : Bool
  written : Option SavedEntry
  deriving Repr, DecidableEq

/-- The 400 response of the OpenRouter gate. -/
def openrouterRejectResponse (hs : List Header) : Response :=
  { status := 400, version := "HTTP/1.1", headers := [],
    body := utf8Encode ("provider-proxy: Missing or incorrect required header(s) for OpenRouter: "
      ++ openrouterMissingStr hs) }

/-- The 418 response of the duplicate-header gate. -/
def duplicateRejectResponse (n : String) : Response :=
  { status := 418, version := "HTTP/1.1", headers := [],
    body := utf8Encode ("provider-proxy: Duplicate header: " ++ n) }

/-- Model of the per-request service closure (lib.rs lines 366-429): the
OpenRouter gate, then the duplicate-header gate, then `check_cache` with
the upstream fetch as the miss continuation. -/
def handleRequest (startTime : Nat) (args : Args) (r : Request) (fs : FsView)
    (up : UpstreamResult) : Except Fail HandlerOutcome :=
  if isOpenrouterRequest r.uri && !(hasTitleB r.headers && hasRefererB r.headers) then
    .ok { response := openrouterRejectResponse r.headers, cacheLookup := false,
          forwarded := false, written := none }
  else
    match findDuplicateHeader r.headers with
    | some n =>
      .ok { response := duplicateRejectResponse n, cacheLookup := false,
            forwarded := false, written := none }
    | none =>
      match checkCacheOutcome startTime args r fs up with
      | .error e => .error e
      | .ok o =>
        .ok { response := o.response, cacheLookup := true,
              forwarded := !o.cacheHit, written := o.written }

/-! ## Serde helpers (`tensorzero-core/src/serde_util.rs`)

JSON values are modelled with integer numbers; floating-point numbers do
not arise in the u64 claims. -/

/-- A JSON value. -/
inductive JsonVal where
  | null
  | bool (b : Bool)
  | num (n : Int)
  | str (s : String)
  | arr (xs : List JsonVal)
  | obj (kvs : List (String × JsonVal))

/-- Whether a character is an ASCII digit. -/
def isAsciiDigit (c : Char) : Bool := '0' ≤ c && c ≤ '9'

/-- Numeric value of a digit list. -/
def digitsToNat (cs : List Char) : Nat :=
  cs.foldl (fun acc c => acc * 10 + (c.toNat - 48)) 0

/-- Model of Rust `str::parse::<u64>`: an optional leading `+`, then one
or more ASCII digits, with the value below `2 ^ 64`. -/
def parseU64 (s : String) : Option Nat :=
  let cs :=
    match s.data with
    | '+' :: rest => rest
    | cs => cs
  if cs.isEmpty then none
  else if cs.all isAsciiDigit then
    let n := digitsToNat cs
    if n < 18446744073709551616 then some n else none
  else none

/-- Model of `deserialize_option_u64` (serde_util.rs lines 356-383): the
untagged `Helper` accepts a JSON string (parsed as u64, with the empty
string and unparsable strings rejected), a u64 number, or `null`. Any
other value fails the untagged match. -/
def deserialize_option_u64 (v : JsonVal) : Except String (Option Nat) :=
  match v with
  | .str s =>
    if s.isEmpty then .error "empty string is not a valid u64"
    else
      match parseU64 s with
      | some n => .ok (some n)
      | none => .error ("invalid u64 string: '" ++ s ++ "'")
  | .num n =>
    if 0 ≤ n ∧ n < 18446744073709551616 then .ok (some n.toNat)
    else .error "data did not match any variant of untagged enum Helper"
  | .null => .ok none
  | _ => .error "data did not match any variant of untagged enum Helper"

/-- Model of `deserialize_optional_json_string` (serde_util.rs lines
103-120), parameterized by the inner `serde_json::from_str` of the
generic target type: `null` and the empty string map to `None`, any
other string is parsed, and any non-string value is a type error from
`Option::<String>::deserialize`. -/
def deserialize_optional_json_string {α : Type} (fromStr : String → Except String α)
    (v : JsonVal) : Except String (Option α) :=
  match v with
  | .null => .ok none
  | .str s =>
    if s.isEmpty then .ok none
    else
      match fromStr s with
      | .ok a => .ok (some a)
      | .error e => .error e
  | _ => .error "invalid type: expected an optional string"

/-! ## Derived forms used by the verification

The sanitizers admit a pointwise normal form on header maps without
duplicate names (every request reaching `check_cache` has none, because
the duplicate-header gate rejects the rest): each position is updated
independently. -/

/-- Pointwise effect of the bearer sanitizer at one header position. -/
def bearerUpd (flag : Bool) (p : Header) : Header :=
  if flag && ((p.1 == "authorization") && startsBearerB p.2) then (p.1, bearerToken) else p

/-- Pointwise effect of a presence-scrubbing sanitizer at one header
position. -/
def scrubUpd (flag : Bool) (names : List String) (p : Header) : Header :=
  if flag && names.contains p.1 then (p.1, proxyToken) else p

/-- Pointwise effect of the whole sanitizer pipeline at one header
position. -/
def sanitizePos (args : Args) (p : Header) : Header :=
  scrubUpd args.sanitize_model_headers modelHeaderNames
    (scrubUpd args.sanitize_aws_sigv4 awsHeaderNames
      (bearerUpd args.sanitize_bearer_auth p))

/-- Whether a difference between the values `v1` and `v2` stored under
the header name `n` is erased by an enabled sanitizer: a Bearer token
difference when `sanitize_bearer_auth` is on, any difference in an AWS
SigV4 header when `sanitize_aws_sigv4` is on, or any difference in a
model header when `sanitize_model_headers` is on. -/
def allow0 (args : Args) (n : String) (v1 v2 : List Nat) : Bool :=
  (args.sanitize_bearer_auth && ((n == "authorization") && (startsBearerB v1 && startsBearerB v2))) ||
  (args.sanitize_aws_sigv4 && awsHeaderNames.contains n) ||
  (args.sanitize_model_headers && modelHeaderNames.contains n)

/-- Two header lists differ only in sanitized values: same names in the
same positions, and every value difference is sanctioned by `allow0`. -/
def headersRelB (args : Args) : List Header → List Header → Bool
  | [], [] => true
  | p :: t1, q :: t2 =>
    ((p.1 == q.1) && ((p.2 == q.2) || allow0 args p.1 p.2 q.2)) && headersRelB args t1 t2
  | _, _ => false

/-- Whether the bearer sanitizer can run without panicking: off, or the
`Authorization` value (when present) is visible ASCII. -/
def authOkB (flag : Bool) (hs : List Header) : Bool :=
  !flag ||
    (match getHeader hs "authorization" with
     | some v => (headerToStr v).isSome
     | none => true)

/-- Whether the content type of a response starts (bytewise) with
`image/` or `application/pdf`. -/
def ctSkipB (resp : Response) : Bool :=
  match getHeader resp.headers "content-type" with
  | some ct => isPrefixB (utf8Encode "image/") ct || isPrefixB (utf8Encode "application/pdf") ct
  | none => false

/-- Whether a result is a Rust panic. -/
def isPanic {α : Type} : Except Fail α → Bool
  | .error (.panic _) => true
  | _ => false

/-! ## Concrete scenario data used by witnesses and counterexamples -/

/-- Default CLI arguments: all sanitizers on, `read-old-write-new`. -/
def keyStabilityArgs : Args := ⟨"request_cache", true, true, true, CacheMode.ReadOldWriteNew⟩

/-- A request bearing `Authorization: Bearer A`. -/
def keyStabilityReqA : Request :=
  ⟨"POST", ⟨some "api.example.com", "/v1/x"⟩, "HTTP/1.1",
   [("host", utf8Encode "api.example.com"), ("authorization", utf8Encode "Bearer A")],
   utf8Encode "hello", []⟩

/-- The same request with `Authorization: Bearer B`. -/
def keyStabilityReqB : Request :=
  ⟨"POST", ⟨some "api.example.com", "/v1/x"⟩, "HTTP/1.1",
   [("host", utf8Encode "api.example.com"), ("authorization", utf8Encode "Bearer B")],
   utf8Encode "hello", []⟩

/-- Arguments with only the bearer sanitizer enabled. -/
def dupBearerArgs : Args := ⟨"request_cache", true, false, false, CacheMode.ReadOldWriteNew⟩

/-- A request with a duplicated `Authorization` header whose second
value is `Bearer A`: only the first value is consulted (and here left
alone, as it does not start with `Bearer `), so the second token leaks
into the cache key. -/
def dupBearerReqA : Request :=
  ⟨"", ⟨some "h", ""⟩, "",
   [("authorization", []), ("authorization", utf8Encode "Bearer A")], [], []⟩

/-- The same request with second value `Bearer B`. -/
def dupBearerReqB : Request :=
  ⟨"", ⟨some "h", ""⟩, "",
   [("authorization", []), ("authorization", utf8Encode "Bearer B")], [], []⟩

/-- A request whose `Authorization` value is an opaque byte: the bearer
sanitizer's `to_str().unwrap()` panics on it. -/
def opaqueAuthReq : Request :=
  ⟨"POST", ⟨some "h.ai", "/v"⟩, "HTTP/1.1", [("authorization", [255])], utf8Encode "x", []⟩

/-- The same request with a visible-ASCII `Authorization` value. -/
def asciiAuthReq : Request :=
  ⟨"POST", ⟨some "h.ai", "/v"⟩, "HTTP/1.1", [("authorization", utf8Encode "x")], utf8Encode "x", []⟩

/-- A stored 200 response used in the `ReadOldWriteNew` scenario. -/
def ronwStored : Response :=
  ⟨200, "HTTP/1.1", [("content-type", utf8Encode "application/json")], utf8Encode "ok"⟩

/-- A plain request for the `ReadOldWriteNew` scenario. -/
def ronwReq : Request := ⟨"GET", ⟨some "api.example.com", "/v1/x"⟩, "HTTP/1.1", [], [], []⟩

/-- A cache file with modification time 5, readable and well-formed. -/
def ronwFs : FsView := ⟨true, some 5, some ronwStored⟩

/-- A request with a host and a well-formed bearer `Authorization`. -/
def noPanicReq : Request :=
  ⟨"GET", ⟨some "h.ai", "/"⟩, "HTTP/1.1", [("authorization", utf8Encode "Bearer tok")], [], []⟩

/-- A request whose URI has no host. -/
def hostlessReq : Request :=
  ⟨"GET", ⟨none, "/"⟩, "HTTP/1.1", [], [], []⟩

/-- A non-success upstream response. -/
def skipResp : Response := ⟨500, "HTTP/1.1", [], utf8Encode "err"⟩

/-- A plain request for the skip scenario. -/
def skipReq : Request := ⟨"GET", ⟨some "img.example.com", "/a.png"⟩, "HTTP/1.1", [], [], []⟩

/-- A plain request for the cache indicator scenario. -/
def indicatorReq : Request := ⟨"GET", ⟨some "api.example.com", "/v1/y"⟩, "HTTP/1.1", [], [], []⟩

/-- A cacheable JSON 200 upstream response. -/
def indicatorResp : Response :=
  ⟨200, "HTTP/1.1", [("content-type", utf8Encode "application/json")], utf8Encode "yo"⟩

/-- A 200 JSON response used for the cross-filesystem write scenario. -/
def crossFsResp : Response :=
  ⟨200, "HTTP/1.1", [("content-type", utf8Encode "application/json")], utf8Encode "ok"⟩

/-- An OpenRouter request carrying `X-Title` but no `HTTP-Referer`. -/
def openrouterReq : Request :=
  ⟨"POST", ⟨some "openrouter.ai", "/api/v1"⟩, "HTTP/1.1",
   [("x-title", utf8Encode "TensorZero")], utf8Encode "q", []⟩

/-- A request with a duplicated `X-Foo` header. -/
def dupHeaderReq : Request :=
  ⟨"GET", ⟨some "api.example.com", "/"⟩, "HTTP/1.1",
   [("x-foo", utf8Encode "1"), ("x-foo", utf8Encode "2")], [], []⟩

/-- A request with a non-bearer `Authorization` and a `User-Agent`. -/
def awsReq : Request :=
  ⟨"GET", ⟨some "h.ai", "/"⟩, "HTTP/1.1",
   [("authorization", utf8Encode "Basic xyz"), ("user-agent", utf8Encode "curl")], [], []⟩

/-- The sanitized form of `awsReq` under the default arguments. -/
def awsReqSanitized : Request :=
  ⟨"GET", ⟨some "h.ai", "/"⟩, "HTTP/1.1",
   [("authorization", proxyToken), ("user-agent", proxyToken)], [], []⟩

/-! ## Lemmas about the header map and the sanitizer pipeline -/

theorem getHeader_insert_self (hs : List Header) (n : String) (v : List Nat) :
    getHeader (insertHeader hs n v) n = some v := by
  induction hs with
  | nil => simp [insertHeader, getHeader]
  | cons p rest ih =>
    by_cases h : p.1 = n
    · simp [insertHeader, getHeader, h]
    · simp [insertHeader, getHeader, h, ih]

theorem contains_eq_isSome (hs : List Header) (n : String) :
    containsHeader hs n = (getHeader hs n).isSome := by
  induction hs with
  | nil => rfl
  | cons p rest ih =>
    simp only [containsHeader, List.any_cons] at ih ⊢
    by_cases h : p.1 = n
    · simp [getHeader, h]
    · simp [getHeader, h, ih]

theorem getHeader_isSome_mem (hs : List Header) (n : String) (v : List Nat)
    (h : getHeader hs n = some v) : n ∈ hs.map Prod.fst := by
  induction hs with
  | nil => simp [getHeader] at h
  | cons p rest ih =>
    by_cases hp : p.1 = n
    · simp [hp]
    · simp [getHeader, hp] at h
      simp [ih h]

theorem not_mem_fst_of_not_contains (hs : List Header) (n : String)
    (h : containsHeader hs n = false) : ∀ p ∈ hs, p.1 ≠ n := by
  intro p hp
  simp [containsHeader] at h
  exact h p.1 p.2 hp

theorem removeHeader_of_not_contains (hs : List Header) (n : String)
    (h : containsHeader hs n = false) : removeHeader hs n = hs := by
  induction hs with
  | nil => rfl
  | cons p rest ih =>
    simp [containsHeader] at h
    simp [removeHeader, h.1, ih (by simp [containsHeader]; exact h.2)]

theorem setHeader_of_not_contains (hs : List Header) (n : String) (v : List Nat)
    (h : containsHeader hs n = false) : setHeader hs n v = hs := by
  induction hs with
  | nil => rfl
  | cons p rest ih =>
    simp [containsHeader] at h
    simp [setHeader] at ih ⊢
    exact ⟨by simp [h.1], ih (by simp [containsHeader]; exact h.2)⟩

theorem map_fst_setHeader (hs : List Header) (n : String) (v : List Nat) :
    (setHeader hs n v).map Prod.fst = hs.map Prod.fst := by
  induction hs with
  | nil => rfl
  | cons p rest ih =>
    by_cases h : p.1 = n <;> simp [setHeader, h] at ih ⊢ <;> exact ih

theorem getHeader_of_mem_nodup (hs : List Header) (p : Header)
    (hnd : (hs.map Prod.fst).Nodup) (hp : p ∈ hs) : getHeader hs p.1 = some p.2 := by
  induction hs with
  | nil => simp at hp
  | cons q rest ih =>
    simp only [List.map_cons, List.nodup_cons] at hnd
    rcases List.mem_cons.mp hp with hp1 | hp2
    · simp [getHeader, hp1]
    · have hq : q.1 ≠ p.1 := by
        intro hc
        exact hnd.1 (hc ▸ List.mem_map_of_mem Prod.fst hp2)
      simp [getHeader, hq, ih hnd.2 hp2]

theorem insertHeader_eq_setHeader (hs : List Header) (n : String) (v : List Nat)
    (hnd : (hs.map Prod.fst).Nodup) (hc : containsHeader hs n = true) :
    insertHeader hs n v = setHeader hs n v := by
  induction hs with
  | nil => simp [containsHeader] at hc
  | cons p rest ih =>
    simp only [List.map_cons, List.nodup_cons] at hnd
    by_cases h : p.1 = n
    · have hrest : containsHeader rest n = false := by
        rcases hcr : containsHeader rest n with _ | _
        · rfl
        · exfalso
          rw [contains_eq_isSome] at hcr
          rcases Option.isSome_iff_exists.mp hcr with ⟨w, hw⟩
          exact hnd.1 (h ▸ getHeader_isSome_mem rest n w hw)
      calc insertHeader (p :: rest) n v
          = (n, v) :: rest := by
            simp [insertHeader, h, removeHeader_of_not_contains rest n hrest]
        _ = (p.1, v) :: setHeader rest n v := by
            rw [h, setHeader_of_not_contains rest n v hrest]
        _ = setHeader (p :: rest) n v := by simp [setHeader, h]
    · have hcr : containsHeader rest n = true := by
        simp [containsHeader, h] at hc ⊢
        exact hc
      simp [insertHeader, setHeader, h] at ih ⊢
      exact ih hnd.2 hcr

theorem eq_map_of_eq_self {α : Type} (l : List α) (f : α → α) (h : ∀ a ∈ l, f a = a) :
    l = l.map f := by
  conv_lhs => rw [← List.map_id l]
  exact List.map_congr_left (fun a ha => (h a ha).symm)

theorem fst_bearerUpd (flag : Bool) (p : Header) : (bearerUpd flag p).1 = p.1 := by
  unfold bearerUpd; split <;> rfl

theorem fst_scrubUpd (flag : Bool) (names : List String) (p : Header) :
    (scrubUpd flag names p).1 = p.1 := by
  unfold scrubUpd; split <;> rfl

theorem scrubUpd_of_mem (flag : Bool) (names : List String) (p : Header)
    (hf : flag = true) (hm : names.contains p.1 = true) :
    scrubUpd flag names p = (p.1, proxyToken) := by
  have hm2 : p.1 ∈ names := by simpa using hm
  simp [scrubUpd, hf, hm2]

theorem map_fst_map_bearerUpd (flag : Bool) (hs : List Header) :
    (hs.map (bearerUpd flag)).map Prod.fst = hs.map Prod.fst := by
  rw [List.map_map]
  exact List.map_congr_left (fun p _ => fst_bearerUpd flag p)

theorem map_fst_map_scrubUpd (flag : Bool) (names : List String) (hs : List Header) :
    (hs.map (scrubUpd flag names)).map Prod.fst = hs.map Prod.fst := by
  rw [List.map_map]
  exact List.map_congr_left (fun p _ => fst_scrubUpd flag names p)

theorem scrubPresent_char (names : List String) (hs : List Header)
    (hnd : (hs.map Prod.fst).Nodup) :
    scrubPresent hs names = hs.map (fun p => if names.contains p.1 then (p.1, proxyToken) else p) := by
  induction names generalizing hs with
  | nil => simp [scrubPresent, List.contains]
  | cons n rest ih =>
    have hstep : (if containsHeader hs n then insertHeader hs n proxyToken else hs)
        = setHeader hs n proxyToken := by
      by_cases hc : containsHeader hs n
      · simp [hc, insertHeader_eq_setHeader hs n proxyToken hnd hc]
      · simp [hc, setHeader_of_not_contains hs n proxyToken (by simpa using hc)]
    have hnd2 : ((setHeader hs n proxyToken).map Prod.fst).Nodup := by
      rw [map_fst_setHeader]; exact hnd
    have : scrubPresent hs (n :: rest) = scrubPresent (setHeader hs n proxyToken) rest := by
      simp [scrubPresent, List.foldl_cons, hstep]
    rw [this, ih (setHeader hs n proxyToken) hnd2, setHeader, List.map_map]
    apply List.map_congr_left
    intro p _
    by_cases hp1 : p.1 = n <;> by_cases hp2 : rest.contains p.1 <;>
      simp [Function.comp, hp1, hp2, List.contains_cons]

theorem scrubIf_char (flag : Bool) (names : List String) (hs : List Header)
    (hnd : (hs.map Prod.fst).Nodup) :
    (if flag then scrubPresent hs names else hs) = hs.map (scrubUpd flag names) := by
  cases flag with
  | false =>
    simp only [if_neg Bool.false_ne_true]
    exact eq_map_of_eq_self hs _ (fun p _ => by simp [scrubUpd])
  | true =>
    simp only [if_pos]
    rw [scrubPresent_char names hs hnd]
    exact List.map_congr_left (fun p _ => by simp [scrubUpd])

theorem bearerPass_char (flag : Bool) (hs : List Header) (t : List Header)
    (hnd : (hs.map Prod.fst).Nodup) (h : bearerPass flag hs = .ok t) :
    t = hs.map (bearerUpd flag) := by
  cases flag with
  | false =>
    simp [bearerPass] at h
    rw [← h]
    exact eq_map_of_eq_self hs _ (fun p _ => by simp [bearerUpd])
  | true =>
    rcases hget : getHeader hs "authorization" with _ | v
    · simp [bearerPass, hget] at h
      rw [← h]
      refine eq_map_of_eq_self hs _ ?_
      intro p hp
      have hpn : p.1 ≠ "authorization" := by
        have hc : containsHeader hs "authorization" = false := by
          rw [contains_eq_isSome, hget]; rfl
        exact not_mem_fst_of_not_contains hs "authorization" hc p hp
      simp [bearerUpd, hpn]
    · rcases hts : headerToStr v with _ | s
      · simp [bearerPass, hget, hts] at h
      · by_cases hsw : strStartsWith s "Bearer "
        · have hc : containsHeader hs "authorization" = true := by
            rw [contains_eq_isSome, hget]; rfl
          simp [bearerPass, hget, hts, hsw] at h
          rw [← h, insertHeader_eq_setHeader hs "authorization" bearerToken hnd hc, setHeader]
          apply List.map_congr_left
          intro p hp
          by_cases hpn : p.1 = "authorization"
          · have hpv : p.2 = v := by
              have := getHeader_of_mem_nodup hs p hnd hp
              rw [hpn, hget] at this
              exact (Option.some_injective _ this).symm
            simp [bearerUpd, hpn, startsBearerB, hpv, hts, hsw]
          · simp [bearerUpd, hpn]
        · simp [bearerPass, hget, hts, hsw] at h
          rw [← h]
          refine eq_map_of_eq_self hs _ ?_
          intro p hp
          by_cases hpn : p.1 = "authorization"
          · have hpv : p.2 = v := by
              have := getHeader_of_mem_nodup hs p hnd hp
              rw [hpn, hget] at this
              exact (Option.some_injective _ this).symm
            simp [bearerUpd, hpn, startsBearerB, hpv, hts, hsw]
          · simp [bearerUpd, hpn]

theorem sanitizeHeaders_char (args : Args) (hs t : List Header)
    (hnd : (hs.map Prod.fst).Nodup) (h : sanitizeHeaders args hs = .ok t) :
    t = hs.map (sanitizePos args) := by
  rcases hb : bearerPass args.sanitize_bearer_auth hs with e | t1
  · simp [sanitizeHeaders, hb] at h
  · simp [sanitizeHeaders, hb] at h
    have ht1 : t1 = hs.map (bearerUpd args.sanitize_bearer_auth) :=
      bearerPass_char _ hs t1 hnd hb
    have hnd1 : (t1.map Prod.fst).Nodup := by
      rw [ht1, map_fst_map_bearerUpd]; exact hnd
    have haws : awsPass args.sanitize_aws_sigv4 t1
        = t1.map (scrubUpd args.sanitize_aws_sigv4 awsHeaderNames) := by
      rw [awsPass]; exact scrubIf_char _ _ t1 hnd1
    have hnd2 : ((t1.map (scrubUpd args.sanitize_aws_sigv4 awsHeaderNames)).map Prod.fst).Nodup := by
      rw [map_fst_map_scrubUpd]; exact hnd1
    have hmodel : modelPass args.sanitize_model_headers
          (t1.map (scrubUpd args.sanitize_aws_sigv4 awsHeaderNames))
        = (t1.map (scrubUpd args.sanitize_aws_sigv4 awsHeaderNames)).map
            (scrubUpd args.sanitize_model_headers modelHeaderNames) := by
      rw [modelPass]; exact scrubIf_char _ _ _ hnd2
    rw [← h, haws, hmodel, ht1, List.map_map, List.map_map]
    exact List.map_congr_left (fun p _ => by simp [Function.comp, sanitizePos])

theorem sanitizePos_congr (args : Args) (n : String) (a b : List Nat)
    (h : a = b ∨ allow0 args n a b = true) :
    sanitizePos args (n, a) = sanitizePos args (n, b) := by
  rcases h with h | h
  · rw [h]
  · simp only [allow0, Bool.or_eq_true, Bool.and_eq_true, beq_iff_eq] at h
    rcases h with (⟨hf, hn, ha, hb⟩ | ⟨hf, hn⟩) | ⟨hf, hn⟩
    · have e1 : bearerUpd args.sanitize_bearer_auth (n, a) = (n, bearerToken) := by
        simp [bearerUpd, hf, hn, ha]
      have e2 : bearerUpd args.sanitize_bearer_auth (n, b) = (n, bearerToken) := by
        simp [bearerUpd, hf, hn, hb]
      simp [sanitizePos, e1, e2]
    · have e1 : ∀ c : List Nat,
          scrubUpd args.sanitize_aws_sigv4 awsHeaderNames (bearerUpd args.sanitize_bearer_auth (n, c))
            = (n, proxyToken) := by
        intro c
        have hfst : (bearerUpd args.sanitize_bearer_auth (n, c)).1 = n := fst_bearerUpd _ _
        rw [scrubUpd_of_mem _ _ _ hf (by rw [hfst]; exact hn), hfst]
      simp [sanitizePos, e1]
    · have e1 : ∀ c : List Nat,
          scrubUpd args.sanitize_model_headers modelHeaderNames
            (scrubUpd args.sanitize_aws_sigv4 awsHeaderNames
              (bearerUpd args.sanitize_bearer_auth (n, c))) = (n, proxyToken) := by
        intro c
        have h1 : (scrubUpd args.sanitize_aws_sigv4 awsHeaderNames
            (bearerUpd args.sanitize_bearer_auth (n, c))).1 = n := by
          rw [fst_scrubUpd, fst_bearerUpd]
        rw [scrubUpd_of_mem _ _ _ hf (by rw [h1]; exact hn), h1]
      simp [sanitizePos, e1]

theorem headersRelB_fst (args : Args) (hs1 hs2 : List Header)
    (h : headersRelB args hs1 hs2 = true) :
    hs1.map Prod.fst = hs2.map Prod.fst := by
  induction hs1 generalizing hs2 with
  | nil => cases hs2 with
    | nil => rfl
    | cons q t2 => simp [headersRelB] at h
  | cons p t1 ih =>
    cases hs2 with
    | nil => simp [headersRelB] at h
    | cons q t2 =>
      simp only [headersRelB, Bool.and_eq_true, beq_iff_eq] at h
      simp [h.1.1, ih t2 h.2]

theorem headersRelB_map_sanitizePos (args : Args) (hs1 hs2 : List Header)
    (h : headersRelB args hs1 hs2 = true) :
    hs1.map (sanitizePos args) = hs2.map (sanitizePos args) := by
  induction hs1 generalizing hs2 with
  | nil => cases hs2 with
    | nil => rfl
    | cons q t2 => simp [headersRelB] at h
  | cons p t1 ih =>
    cases hs2 with
    | nil => simp [headersRelB] at h
    | cons q t2 =>
      simp only [headersRelB, Bool.and_eq_true, Bool.or_eq_true, beq_iff_eq] at h
      obtain ⟨⟨hfst, hval⟩, htail⟩ := h
      have hpq : sanitizePos args p = sanitizePos args q := by
        obtain ⟨n1, a⟩ := p
        obtain ⟨n2, b⟩ := q
        simp only at hfst
        subst hfst
        exact sanitizePos_congr args n1 a b (by simpa using hval)
      simp [hpq, ih t2 htail]

theorem cacheFilename_isOk_inv (args : Args) (r : Request)
    (h : (cacheFilename args r).isOk = true) :
    ∃ t host, sanitizeHeaders args r.headers = .ok t ∧ r.uri.host = some host ∧
      cacheFilename args r
        = .ok (host ++ "-" ++ hash_value (serializeRequest { r with headers := t, extensions := [] })) := by
  rcases hs : sanitizeHeaders args r.headers with e | t
  · rw [cacheFilename, sanitizeRequest, hs] at h
    simp [Except.isOk, Except.toBool] at h
  · rcases hh : r.uri.host with _ | host
    · rw [cacheFilename, sanitizeRequest, hs] at h
      simp only [hh] at h
      simp [Except.isOk, Except.toBool] at h
    · exact ⟨t, host, rfl, rfl, by rw [cacheFilename, sanitizeRequest, hs]; simp [hh]⟩

theorem fst_sanitizePos (args : Args) (p : Header) : (sanitizePos args p).1 = p.1 := by
  rw [sanitizePos, fst_scrubUpd, fst_scrubUpd, fst_bearerUpd]

theorem getHeader_map_const (f : Header → Header) (n : String) (c : List Nat)
    (hf : ∀ p, (f p).1 = p.1) (hconst : ∀ a, f (n, a) = (n, c))
    (hs : List Header) (hc : containsHeader hs n = true) :
    getHeader (hs.map f) n = some c := by
  induction hs with
  | nil => simp [containsHeader] at hc
  | cons p rest ih =>
    by_cases hp : p.1 = n
    · have hfp : f p = (n, c) := by
        have hpe : p = (n, p.2) := by
          obtain ⟨p1, p2⟩ := p
          simpa using hp
        rw [hpe]
        exact hconst p.2
      simp [getHeader, hfp]
    · have hfp : (f p).1 ≠ n := by rw [hf p]; exact hp
      have hcr : containsHeader rest n = true := by
        simp [containsHeader, hp] at hc ⊢
        exact hc
      simp [getHeader, hfp, ih hcr]

theorem isPrefixB_map {α β : Type} [BEq α] [LawfulBEq α] [BEq β] [LawfulBEq β]
    (f : α → β) (l1 l2 : List α) (h : isPrefixB l1 l2 = true) :
    isPrefixB (l1.map f) (l2.map f) = true := by
  induction l1 generalizing l2 with
  | nil => simp [isPrefixB]
  | cons a as ih =>
    cases l2 with
    | nil => simp [isPrefixB] at h
    | cons b bs =>
      simp only [isPrefixB, Bool.and_eq_true, beq_iff_eq] at h
      simp only [List.map_cons, isPrefixB, Bool.and_eq_true, beq_iff_eq]
      exact ⟨by rw [h.1], ih bs h.2⟩

theorem strStartsWith_of_bytePrefix (pfx : String) (v : List Nat) (s : String)
    (hlow : pfx.data.map Char.toNat = utf8Encode pfx)
    (hts : headerToStr v = some s) (hp : isPrefixB (utf8Encode pfx) v = true) :
    strStartsWith s pfx = true := by
  have hsv : s = String.mk (v.map Char.ofNat) := by
    rw [headerToStr] at hts
    split at hts
    · exact (Option.some_injective _ hts).symm
    · exact absurd hts (by simp)
  rw [strStartsWith, hsv]
  have h1 : isPrefixB ((utf8Encode pfx).map Char.ofNat) (v.map Char.ofNat) = true :=
    isPrefixB_map Char.ofNat _ _ hp
  rw [← hlow, List.map_map] at h1
  have h2 : pfx.data.map (Char.ofNat ∘ Char.toNat) = pfx.data := by
    rw [show (Char.ofNat ∘ Char.toNat) = fun c : Char => Char.ofNat c.toNat from rfl]
    calc pfx.data.map (fun c : Char => Char.ofNat c.toNat)
        = pfx.data.map (fun c : Char => c) := List.map_congr_left (fun c _ => Char.ofNat_toNat c)
      _ = pfx.data := List.map_id' pfx.data
  rw [h2] at h1
  exact h1

theorem savedEntry_headers (resp : Response) (e : SavedEntry)
    (h : saveCacheBody resp = .ok (some e)) : e.headers = resp.headers := by
  rw [saveCacheBody] at h
  split at h
  · split at h
    · simp at h
    · split at h
      · simp at h
      · simp only [Except.ok.injEq, Option.some.injEq] at h
        rw [← h, mkSavedEntry]
  · simp only [Except.ok.injEq, Option.some.injEq] at h
    rw [← h, mkSavedEntry]

theorem sanitizeHeaders_isOk (args : Args) (hs : List Header)
    (hauth : args.sanitize_bearer_auth = true →
      ∀ v, getHeader hs "authorization" = some v → (headerToStr v).isSome = true) :
    (sanitizeHeaders args hs).isOk = true := by
  rcases hb : bearerPass args.sanitize_bearer_auth hs with e | t
  · exfalso
    rw [bearerPass] at hb
    rcases hflag : args.sanitize_bearer_auth with _ | _
    · rw [hflag] at hb; simp at hb
    · rw [hflag] at hb
      simp only [if_true] at hb
      rcases hget : getHeader hs "authorization" with _ | v
      · simp only [hget] at hb; simp at hb
      · simp only [hget] at hb
        rcases hts : headerToStr v with _ | s
        · have := hauth hflag v hget
          rw [hts] at this
          simp at this
        · simp only [hts] at hb
          split at hb <;> simp at hb
  · simp [sanitizeHeaders, hb, Except.isOk, Except.toBool]

theorem checkCacheOutcome_no_panic (startTime : Nat) (args : Args) (r : Request)
    (fs : FsView) (up : UpstreamResult)
    (hhost : r.uri.host.isSome = true)
    (hauth : args.sanitize_bearer_auth = true →
      ∀ v, getHeader r.headers "authorization" = some v → (headerToStr v).isSome = true) :
    ∀ m, checkCacheOutcome startTime args r fs up ≠ .error (Fail.panic m) := by
  intro m hcontra
  have hso := sanitizeHeaders_isOk args r.headers hauth
  rcases hsh : sanitizeHeaders args r.headers with e | t
  · rw [hsh] at hso; simp [Except.isOk, Except.toBool] at hso
  · rcases hh : r.uri.host with _ | host
    · rw [hh] at hhost; simp at hhost
    · have hcf : cacheFilename args r
          = .ok (host ++ "-" ++ hash_value (serializeRequest { r with headers := t, extensions := [] })) := by
        rw [cacheFilename, sanitizeRequest, hsh]
        simp [hh]
      simp only [checkCacheOutcome, hcf] at hcontra
      rcases hd : hitDecision startTime args fs with e2 | b
      · have he2 : ∃ msg, e2 = Fail.err msg := by
          rw [hitDecision] at hd
          split at hd
          · split at hd
            · simp at hd
            · simp at hd
            · split at hd
              · simp at hd
              · simp only [Except.error.injEq] at hd
                exact ⟨_, hd.symm⟩
          · simp at hd
        obtain ⟨msg, hmsg⟩ := he2
        simp [hd, hmsg] at hcontra
      · cases b with
        | true =>
          rcases hst : fs.stored with _ | stored
          · simp [hd, hst] at hcontra
          · simp [hd, hst] at hcontra
        | false =>
          simp only [hd] at hcontra
          split at hcontra <;> simp at hcontra

theorem handleRequest_no_panic (startTime : Nat) (args : Args) (r : Request)
    (fs : FsView) (up : UpstreamResult)
    (hhost : r.uri.host.isSome = true)
    (hauth : args.sanitize_bearer_auth = true →
      ∀ v, getHeader r.headers "authorization" = some v → (headerToStr v).isSome = true) :
    ∀ m, handleRequest startTime args r fs up ≠ .error (Fail.panic m) := by
  intro m hcontra
  rw [handleRequest] at hcontra
  split at hcontra
  · simp at hcontra
  · split at hcontra
    · simp at hcontra
    · rcases hcc : checkCacheOutcome startTime args r fs up with e | o
      · rw [hcc] at hcontra
        simp only [Except.error.injEq] at hcontra
        exact checkCacheOutcome_no_panic startTime args r fs up hhost hauth m (by rw [hcc, hcontra])
      · rw [hcc] at hcontra
        simp at hcontra

theorem mem_dedupFirstAux (l seen : List String) (x : String)
    (hx : x ∈ l) (hs : seen.contains x = false) : x ∈ dedupFirstAux l seen := by
  induction l generalizing seen with
  | nil => simp at hx
  | cons y ys ih =>
    by_cases hc : seen.contains y
    · have hxy : x ≠ y := by
        intro he
        rw [he, hc] at hs
        simp at hs
      rcases List.mem_cons.mp hx with h1 | h2
      · exact absurd h1 hxy
      · simp only [dedupFirstAux, hc, if_true]
        exact ih _ h2 hs
    · simp only [dedupFirstAux, hc, Bool.false_eq_true, if_false]
      by_cases hxy : x = y
      · rw [hxy]; exact List.mem_cons_self y _
      · rcases List.mem_cons.mp hx with h1 | h2
        · exact absurd h1 hxy
        · refine List.mem_cons_of_mem y (ih _ h2 ?_)
          simp
          exact ⟨hxy, by simpa using hs⟩

theorem findDuplicateHeader_of_dup (hs : List Header)
    (hdup : ¬ (hs.map Prod.fst).Nodup) :
    ∃ n, findDuplicateHeader hs = some n ∧ 2 ≤ countName hs n := by
  have hex : ∃ a, 2 ≤ (hs.map Prod.fst).count a := by
    by_contra hno
    push_neg at hno
    exact hdup (List.nodup_iff_count_le_one.mpr (fun a => by
      have := hno a
      omega))
  obtain ⟨a, ha⟩ := hex
  have hmem : a ∈ hs.map Prod.fst := by
    rw [← List.count_pos_iff]
    omega
  have hmem2 : a ∈ dedupFirstAux (hs.map Prod.fst) [] :=
    mem_dedupFirstAux _ _ _ hmem (by simp)
  have hsome : (findDuplicateHeader hs).isSome = true := by
    rw [findDuplicateHeader, List.find?_isSome]
    exact ⟨a, hmem2, by simp [countName]; omega⟩
  obtain ⟨n, hn⟩ := Option.isSome_iff_exists.mp hsome
  refine ⟨n, hn, ?_⟩
  have := List.find?_some hn
  simpa [countName] using this

theorem checkCacheOutcome_skip_aux (startTime : Nat) (args : Args) (r : Request) (fs : FsView)
    (up : UpstreamResult) (o : Outcome) (resp : Response)
    (hok : checkCacheOutcome startTime args r fs up = .ok o)
    (hup : up = .ok resp)
    (hmiss : o.cacheHit = false)
    (hskip : is2xxB resp.status = false ∨
      ∃ ct, getHeader resp.headers "content-type" = some ct ∧
        (isPrefixB (utf8Encode "image/") ct = true ∨
          isPrefixB (utf8Encode "application/pdf") ct = true)) :
    o.written = none ∧ o.response = withCacheFlag resp false := by
  rcases hcf : cacheFilename args r with e | fname
  · simp [checkCacheOutcome, hcf] at hok
  · rcases hd : hitDecision startTime args fs with e | b
    · simp [checkCacheOutcome, hcf, hd] at hok
    · cases b with
      | true =>
        rcases hst : fs.stored with _ | stored
        · simp [checkCacheOutcome, hcf, hd, hst] at hok
        · simp only [checkCacheOutcome, hcf, hd, hst, Except.ok.injEq] at hok
          subst hok
          simp at hmiss
      | false =>
        by_cases h2 : is2xxB resp.status = true
        · rcases hskip with hbad | ⟨ct, hct, hpfx⟩
          · rw [h2] at hbad; exact absurd hbad (by simp)
          · have hsave : (match saveCacheBody resp with
                | Except.ok e => e
                | Except.error _ => none) = (none : Option SavedEntry) := by
              rcases hts : headerToStr ct with _ | s
              · simp [saveCacheBody, hct, hts]
              · have : strStartsWith s "image/" = true ∨ strStartsWith s "application/pdf" = true := by
                  rcases hpfx with hpfx | hpfx
                  · exact Or.inl (strStartsWith_of_bytePrefix "image/" ct s (by decide) hts hpfx)
                  · exact Or.inr (strStartsWith_of_bytePrefix "application/pdf" ct s (by decide) hts hpfx)
                rcases this with hsw | hsw <;> simp [saveCacheBody, hct, hts, hsw]
            simp only [checkCacheOutcome, hcf, hd, hup, h2, if_true, Except.ok.injEq] at hok
            subst hok
            constructor
            · simp only []
              split
              · exact hsave
              · rfl
            · rfl
        · simp only [checkCacheOutcome, hcf, hd, hup, h2, if_false, Except.ok.injEq] at hok
          simp at hok
          subst hok
          exact ⟨rfl, rfl⟩

theorem handleRequest_dup_aux (startTime : Nat) (args : Args) (r : Request) (fs : FsView)
    (up : UpstreamResult)
    (hpass : (isOpenrouterRequest r.uri && !(hasTitleB r.headers && hasRefererB r.headers)) = false)
    (hdup : ¬ (r.headers.map Prod.fst).Nodup) :
    ∃ n, findDuplicateHeader r.headers = some n ∧ 2 ≤ countName r.headers n ∧
      handleRequest startTime args r fs up = .ok
        { response :=
            { status := 418, version := "HTTP/1.1", headers := [],
              body := utf8Encode ("provider-proxy: Duplicate header: " ++ n) },
          cacheLookup := false, forwarded := false, written := none } := by
  obtain ⟨n, hn, hcount⟩ := findDuplicateHeader_of_dup r.headers hdup
  refine ⟨n, hn, hcount, ?_⟩
  have hcond : ¬ ((isOpenrouterRequest r.uri
      && !(hasTitleB r.headers && hasRefererB r.headers)) = true) := by
    rw [hpass]; simp
  rw [handleRequest, if_neg hcond]
  simp [hn, duplicateRejectResponse]

theorem sanitizeHeaders_aws_aux (args : Args) (hs t : List Header)
    (hnd : (hs.map Prod.fst).Nodup)
    (_hbearer : args.sanitize_bearer_auth = true)
    (haws : args.sanitize_aws_sigv4 = true)
    (hok : sanitizeHeaders args hs = .ok t)
    (hauth : containsHeader hs "authorization" = true) :
    getHeader t "authorization" = some proxyToken ∧
      ∀ n, awsHeaderNames.contains n = true → containsHeader hs n = true →
        getHeader t n = some proxyToken := by
  have ht := sanitizeHeaders_char args hs t hnd hok
  rw [ht]
  constructor
  · apply getHeader_map_const _ _ _ (fst_sanitizePos args) ?_ hs hauth
    intro a
    have h1 : (bearerUpd args.sanitize_bearer_auth ("authorization", a)).1 = "authorization" :=
      fst_bearerUpd _ _
    rw [sanitizePos, scrubUpd_of_mem _ _ _ haws (by rw [h1]; decide), h1]
    simp [scrubUpd, modelHeaderNames]
  · intro n hmem hcont
    apply getHeader_map_const _ _ _ (fst_sanitizePos args) ?_ hs hcont
    intro a
    have h1 : (bearerUpd args.sanitize_bearer_auth (n, a)).1 = n := fst_bearerUpd _ _
    rw [sanitizePos, scrubUpd_of_mem _ _ _ haws (by rw [h1]; exact hmem), h1]
    have hnm : ¬ (n ∈ modelHeaderNames) := by
      have hmem2 : n ∈ awsHeaderNames := by simpa using hmem
      fin_cases hmem2 <;> decide
    simp [scrubUpd, hnm]

/-! ## Claim theorems -/

/-- C2: in `ReadOldWriteNew` mode, an existing cache file whose mtime is
readable is served as a hit exactly when its mtime is at most the
process start time; a strictly newer file is treated as a miss, so the
response comes from the upstream forward and, for a 2xx response whose
entry is accepted by `save_cache_body`, the entry is queued for
writing. -/
theorem c2_read_old_write_new (startTime t : Nat) (args : Args) (r : Request) (fs : FsView)
    (up : UpstreamResult) (o : Outcome)
    (hmode : args.mode = CacheMode.ReadOldWriteNew)
    (hex : fs.fileExists = true) (hmt : fs.mtime = some t)
    (hok : checkCacheOutcome startTime args r fs up = .ok o) :
    (o.cacheHit = true ↔ t ≤ startTime) ∧
      (startTime < t → o.cacheHit = false ∧
        (∀ resp, up = .ok resp → o.response = withCacheFlag resp false) ∧
        (∀ resp e, up = .ok resp → is2xxB resp.status = true →
          saveCacheBody resp = .ok (some e) → o.written = some e)) := by
  rcases hcf : cacheFilename args r with e | fname
  · simp [checkCacheOutcome, hcf] at hok
  · by_cases hle : t ≤ startTime
    · have hd : hitDecision startTime args fs = .ok true := by
        simp [hitDecision, hex, hmode, hmt, hle]
      rcases hst : fs.stored with _ | resp
      · simp [checkCacheOutcome, hcf, hd, hst] at hok
      · simp only [checkCacheOutcome, hcf, hd, hst, Except.ok.injEq] at hok
        subst hok
        exact ⟨by simp [hle], fun hlt => absurd hle (by omega)⟩
    · have hd : hitDecision startTime args fs = .ok false := by
        simp [hitDecision, hex, hmode, hmt, hle]
      rcases hup : up with resp | msg
      · by_cases h2 : is2xxB resp.status = true
        · simp only [checkCacheOutcome, hcf, hd, hup, h2, if_true, Except.ok.injEq] at hok
          subst hok
          refine ⟨by simp [hle], fun _ => ⟨rfl, ?_, ?_⟩⟩
          · intro resp2 hre
            injection hre with hh
            simp [hh]
          · intro resp2 e hre h2xx hsave
            have hresp : resp2 = resp := by
              injection hre with hh
              exact hh.symm
            subst hresp
            simp [hmode, writeOnMiss, hsave]
        · simp only [checkCacheOutcome, hcf, hd, hup, h2, if_false, Except.ok.injEq] at hok
          simp at hok
          subst hok
          refine ⟨by simp [hle], fun _ => ⟨rfl, ?_, ?_⟩⟩
          · intro resp2 hre
            injection hre with hh
            simp [hh]
          · intro resp2 e hre h2xx hsave
            have hresp : resp2 = resp := by
              injection hre with hh
              exact hh.symm
            subst hresp
            exact absurd h2xx h2
      · simp only [checkCacheOutcome, hcf, hd, hup] at hok
        simp only [is2xxB] at hok
        simp at hok
        subst hok
        refine ⟨by simp [hle], fun _ => ⟨rfl, ?_, ?_⟩⟩
        · intro resp2 hre
          simp at hre
        · intro resp2 e hre h2xx hsave
          simp at hre

/-- C2 witness: a concrete `ReadOldWriteNew` scenario with start time 10
and file mtime 5, served as a hit. -/
theorem c2_read_old_write_new_witness :
    (⟨"request_cache", true, true, true, CacheMode.ReadOldWriteNew⟩ : Args).mode
        = CacheMode.ReadOldWriteNew ∧
    ronwFs.fileExists = true ∧ ronwFs.mtime = some 5 ∧
    checkCacheOutcome 10 ⟨"request_cache", true, true, true, CacheMode.ReadOldWriteNew⟩
        ronwReq ronwFs (UpstreamResult.err "unused")
      = .ok { response := withCacheFlag ronwStored true, cacheHit := true, written := none } ∧
    (({ response := withCacheFlag ronwStored true, cacheHit := true,
        written := none } : Outcome).cacheHit = true ↔ 5 ≤ 10) :=
  ⟨rfl, rfl, rfl, by rfl,
   (c2_read_old_write_new 10 5 ⟨"request_cache", true, true, true, CacheMode.ReadOldWriteNew⟩
     ronwReq ronwFs (UpstreamResult.err "unused")
     { response := withCacheFlag ronwStored true, cacheHit := true, written := none }
     rfl rfl rfl (by rfl)).1⟩

/-- C3 (amended): request handling never panics provided the request
URI has a host and, when bearer sanitization is enabled, any
`Authorization` value is visible ASCII; all other request-scoped
failures surface as error results or HTTP error responses. (As stated,
the claim is false: `check_cache` panics on a missing host via
`expect`, and on a non-visible-ASCII `Authorization` via
`to_str().unwrap()`; a non-visible-ASCII response `Content-Type` panics
the detached cache-write task, which never reaches the client.) -/
theorem c3_no_panic (startTime : Nat) (args : Args) (r : Request) (fs : FsView)
    (up : UpstreamResult)
    (hhost : r.uri.host.isSome = true)
    (hauth : authOkB args.sanitize_bearer_auth r.headers = true) :
    isPanic (handleRequest startTime args r fs up) = false := by
  have hauth2 : args.sanitize_bearer_auth = true →
      ∀ v, getHeader r.headers "authorization" = some v → (headerToStr v).isSome = true := by
    intro hf v hv
    rw [authOkB, hf] at hauth
    simp only [Bool.not_true, Bool.false_or] at hauth
    rw [hv] at hauth
    exact hauth
  have hnp := handleRequest_no_panic startTime args r fs up hhost hauth2
  rcases hr : handleRequest startTime args r fs up with e | o
  · cases e with
    | panic m => exact absurd hr (hnp m)
    | err m => rfl
  · rfl

/-- C3 witness: a request with a host and a visible-ASCII bearer
`Authorization` is handled without a panic. -/
theorem c3_no_panic_witness :
    noPanicReq.uri.host.isSome = true ∧
    authOkB (⟨"request_cache", true, true, true, CacheMode.ReadOldWriteNew⟩ : Args).sanitize_bearer_auth
        noPanicReq.headers = true ∧
    isPanic (handleRequest 0 ⟨"request_cache", true, true, true, CacheMode.ReadOldWriteNew⟩
        noPanicReq ⟨false, none, none⟩ (UpstreamResult.err "down")) = false :=
  ⟨rfl, by decide,
   c3_no_panic 0 ⟨"request_cache", true, true, true, CacheMode.ReadOldWriteNew⟩
     noPanicReq ⟨false, none, none⟩ (UpstreamResult.err "down") rfl (by decide)⟩

/-- C3 counterexample: a request whose URI has no host makes request
handling panic (the `expect("Missing request host")` in `check_cache`),
refuting the claim that handling never panics regardless of the
request's contents. -/
theorem c3_counterexample :
    handleRequest 0 ⟨"request_cache", true, true, true, CacheMode.ReadOldWriteNew⟩
        hostlessReq ⟨false, none, none⟩ (UpstreamResult.err "down")
      = .error (.panic "Missing request host") := by
  rfl

/-- C4: on a miss, a response whose status is not 2xx, or whose
`Content-Type` value begins with `image/` or `application/pdf`, is
never written to the cache; it is forwarded unchanged apart from the
cache-indicator header. -/
theorem c4_skip_invariant (startTime : Nat) (args : Args) (r : Request) (fs : FsView)
    (up : UpstreamResult) (o : Outcome) (resp : Response)
    (hok : checkCacheOutcome startTime args r fs up = .ok o)
    (hup : up = .ok resp)
    (hmiss : o.cacheHit = false)
    (hskip : is2xxB resp.status = false ∨ ctSkipB resp = true) :
    o.written = none ∧ o.response = withCacheFlag resp false := by
  refine checkCacheOutcome_skip_aux startTime args r fs up o resp hok hup hmiss ?_
  rcases hskip with h | h
  · exact Or.inl h
  · right
    rw [ctSkipB] at h
    rcases hct : getHeader resp.headers "content-type" with _ | ct
    · rw [hct] at h; simp at h
    · rw [hct] at h
      exact ⟨ct, rfl, by simpa using h⟩

/-- C4 witness: a 500 upstream response on a miss is forwarded with the
indicator header and nothing is queued for writing. -/
theorem c4_skip_invariant_witness :
    checkCacheOutcome 0 ⟨"request_cache", true, true, true, CacheMode.ReadOldWriteNew⟩
        skipReq ⟨false, none, none⟩ (UpstreamResult.ok skipResp)
      = .ok { response := withCacheFlag skipResp false, cacheHit := false, written := none } ∧
    is2xxB skipResp.status = false ∧
    ({ response := withCacheFlag skipResp false, cacheHit := false,
        written := none } : Outcome).written = none :=
  ⟨by rfl, by decide,
   (c4_skip_invariant 0 ⟨"request_cache", true, true, true, CacheMode.ReadOldWriteNew⟩
     skipReq ⟨false, none, none⟩ (UpstreamResult.ok skipResp)
     { response := withCacheFlag skipResp false, cacheHit := false, written := none }
     skipResp (by rfl) rfl rfl (Or.inl (by decide))).1⟩

/-- C5: every response returned by `check_cache` carries
`x-tensorzero-provider-proxy-cache` with value `true` exactly on a hit
and `false` exactly on a miss (including 502 upstream failures and
uncacheable responses); the header is inserted after the parts destined
for disk are captured, so an entry queued for writing never contains it
unless the upstream itself sent that header. -/
theorem c5_cache_indicator (startTime : Nat) (args : Args) (r : Request) (fs : FsView)
    (up : UpstreamResult) (o : Outcome)
    (hok : checkCacheOutcome startTime args r fs up = .ok o) :
    getHeader o.response.headers cacheHeaderName
        = some (utf8Encode (if o.cacheHit then "true" else "false")) ∧
      (o.cacheHit = true ↔ hitDecision startTime args fs = .ok true) ∧
      (∀ resp, up = .ok resp → containsHeader resp.headers cacheHeaderName = false →
        ∀ e, o.written = some e → containsHeader e.headers cacheHeaderName = false) := by
  rcases hcf : cacheFilename args r with e | fname
  · simp [checkCacheOutcome, hcf] at hok
  · rcases hd : hitDecision startTime args fs with e | b
    · simp [checkCacheOutcome, hcf, hd] at hok
    · cases b with
      | true =>
        rcases hst : fs.stored with _ | stored
        · simp [checkCacheOutcome, hcf, hd, hst] at hok
        · simp only [checkCacheOutcome, hcf, hd, hst, Except.ok.injEq] at hok
          subst hok
          refine ⟨by simp [withCacheFlag, getHeader_insert_self], by simp, ?_⟩
          intro resp hre hnc e hw
          simp at hw
      | false =>
        rcases hup : up with resp | msg
        · by_cases h2 : is2xxB resp.status = true
          · simp only [checkCacheOutcome, hcf, hd, hup, h2, if_true, Except.ok.injEq] at hok
            subst hok
            refine ⟨by simp [withCacheFlag, getHeader_insert_self], by simp, ?_⟩
            intro resp2 hre hnc e hw
            have hre2 : resp2 = resp := by
              injection hre with hh
              exact hh.symm
            rw [hre2] at hnc
            simp only [] at hw
            rcases hsb : saveCacheBody resp with er | oe
            · rw [hsb] at hw
              split at hw <;> simp at hw
            · rw [hsb] at hw
              split at hw
              · rcases oe with _ | e2
                · simp at hw
                · simp only [Option.some.injEq] at hw
                  subst hw
                  rw [savedEntry_headers resp e2 hsb]
                  exact hnc
              · simp at hw
          · simp only [checkCacheOutcome, hcf, hd, hup, h2, if_false, Except.ok.injEq] at hok
            simp at hok
            subst hok
            refine ⟨by simp [withCacheFlag, getHeader_insert_self], by simp, ?_⟩
            intro resp2 hre hnc e hw
            simp at hw
        · simp only [checkCacheOutcome, hcf, hd, hup] at hok
          simp only [is2xxB] at hok
          simp at hok
          subst hok
          refine ⟨by simp [withCacheFlag, getHeader_insert_self], by simp, ?_⟩
          intro resp2 hre hnc e hw
          simp at hre

/-- C5 witness: a concrete miss on a cacheable 200 response carries
`false`, and the entry queued for writing lacks the indicator header. -/
theorem c5_cache_indicator_witness :
    checkCacheOutcome 0 ⟨"request_cache", true, true, true, CacheMode.ReadOldWriteNew⟩
        indicatorReq ⟨false, none, none⟩ (UpstreamResult.ok indicatorResp)
      = .ok { response := withCacheFlag indicatorResp false, cacheHit := false,
              written := some (mkSavedEntry indicatorResp) } ∧
    getHeader ({ response := withCacheFlag indicatorResp false, cacheHit := false,
                 written := some (mkSavedEntry indicatorResp) } : Outcome).response.headers cacheHeaderName
      = some (utf8Encode "false") :=
  ⟨by rfl,
   by
    have h := (c5_cache_indicator 0 ⟨"request_cache", true, true, true, CacheMode.ReadOldWriteNew⟩
      indicatorReq ⟨false, none, none⟩ (UpstreamResult.ok indicatorResp)
      { response := withCacheFlag indicatorResp false, cacheHit := false,
        written := some (mkSavedEntry indicatorResp) }
      (by rfl)).1
    simpa using h⟩

/-- C6 (code bug): `save_cache_body` creates its temporary file with
`NamedTempFile::new()`, i.e. in the OS temp directory, with no
guarantee that it shares a filesystem with `cache_path`; when it does
not, the `persist` rename fails (`EXDEV`) and no cache file is ever
written, contradicting the claimed step "create a temporary file in a
directory that shares a filesystem with the final path". When the two
do share a filesystem, the final path receives the complete entry (the
JSON text plus one newline). -/
theorem c6_write_protocol_bug :
    saveCacheWrite { tempFilesystem := 0, finalFilesystem := 1 } crossFsResp
      = .error (.err "Failed to rename tempfile: Invalid cross-device link (os error 18)") ∧
    saveCacheWrite { tempFilesystem := 0, finalFilesystem := 0 } crossFsResp
      = .ok (some (entryJson (mkSavedEntry crossFsResp) ++ "\n")) := by
  constructor
  · rfl
  · rfl

/-- C7: a request whose host is `openrouter.ai` (case-insensitively)
with a missing or incorrect `X-Title` or `HTTP-Referer` is rejected
with status 400 and the exact diagnostic body, before any cache lookup,
forwarding, or write. -/
theorem c7_openrouter_gate (startTime : Nat) (args : Args) (r : Request) (fs : FsView)
    (up : UpstreamResult)
    (hor : isOpenrouterRequest r.uri = true)
    (hfail : (hasTitleB r.headers && hasRefererB r.headers) = false) :
    handleRequest startTime args r fs up = .ok
      { response :=
          { status := 400, version := "HTTP/1.1", headers := [],
            body := utf8Encode
              ("provider-proxy: Missing or incorrect required header(s) for OpenRouter: "
                ++ openrouterMissingStr r.headers) },
        cacheLookup := false, forwarded := false, written := none } ∧
    (hasTitleB r.headers = false → hasRefererB r.headers = false →
      openrouterMissingStr r.headers = "X-Title and HTTP-Referer") ∧
    (hasTitleB r.headers = false → hasRefererB r.headers = true →
      openrouterMissingStr r.headers = "X-Title") ∧
    (hasTitleB r.headers = true → hasRefererB r.headers = false →
      openrouterMissingStr r.headers = "HTTP-Referer") := by
  refine ⟨?_, ?_, ?_, ?_⟩
  · rw [handleRequest]
    simp [hor, hfail, openrouterRejectResponse]
  · intro h1 h2
    simp [openrouterMissingStr, h1, h2]
  · intro h1 h2
    simp [openrouterMissingStr, h1, h2]
  · intro h1 h2
    simp [openrouterMissingStr, h1, h2]

/-- C7 witness: an OpenRouter request with `X-Title` but without
`HTTP-Referer` is rejected naming `HTTP-Referer`. -/
theorem c7_openrouter_gate_witness :
    isOpenrouterRequest openrouterReq.uri = true ∧
    (hasTitleB openrouterReq.headers && hasRefererB openrouterReq.headers) = false ∧
    handleRequest 0 ⟨"request_cache", true, true, true, CacheMode.ReadOldWriteNew⟩
        openrouterReq ⟨false, none, none⟩ (UpstreamResult.err "down")
      = .ok
        { response :=
            { status := 400, version := "HTTP/1.1", headers := [],
              body := utf8Encode
                ("provider-proxy: Missing or incorrect required header(s) for OpenRouter: "
                  ++ openrouterMissingStr openrouterReq.headers) },
          cacheLookup := false, forwarded := false, written := none } ∧
    openrouterMissingStr openrouterReq.headers = "HTTP-Referer" :=
  ⟨by decide, by decide,
   (c7_openrouter_gate 0 ⟨"request_cache", true, true, true, CacheMode.ReadOldWriteNew⟩
     openrouterReq ⟨false, none, none⟩ (UpstreamResult.err "down") (by decide) (by decide)).1,
   (c7_openrouter_gate 0 ⟨"request_cache", true, true, true, CacheMode.ReadOldWriteNew⟩
     openrouterReq ⟨false, none, none⟩ (UpstreamResult.err "down") (by decide)
     (by decide)).2.2.2 (by decide) (by decide)⟩

/-- C8: a request that passed the OpenRouter gate and repeats some
header name is rejected with status 418 and the exact diagnostic body
naming the first offending header, with no cache lookup, forward, or
write. -/
theorem c8_duplicate_gate (startTime : Nat) (args : Args) (r : Request) (fs : FsView)
    (up : UpstreamResult)
    (hpass : (isOpenrouterRequest r.uri && !(hasTitleB r.headers && hasRefererB r.headers)) = false)
    (hdup : ¬ (r.headers.map Prod.fst).Nodup) :
    (findDuplicateHeader r.headers).isSome = true ∧
    2 ≤ countName r.headers ((findDuplicateHeader r.headers).getD "") ∧
    handleRequest startTime args r fs up = .ok
      { response :=
          { status := 418, version := "HTTP/1.1", headers := [],
            body := utf8Encode ("provider-proxy: Duplicate header: "
              ++ (findDuplicateHeader r.headers).getD "") },
        cacheLookup := false, forwarded := false, written := none } := by
  obtain ⟨n, hn, hcount, hreq⟩ := handleRequest_dup_aux startTime args r fs up hpass hdup
  rw [hn]
  exact ⟨rfl, by simpa using hcount, by simpa using hreq⟩

/-- C8 witness: a request carrying two `x-foo` headers is rejected with
418 and body naming `x-foo`. -/
theorem c8_duplicate_gate_witness :
    (isOpenrouterRequest dupHeaderReq.uri
      && !(hasTitleB dupHeaderReq.headers && hasRefererB dupHeaderReq.headers)) = false ∧
    ¬ (dupHeaderReq.headers.map Prod.fst).Nodup ∧
    handleRequest 0 ⟨"request_cache", true, true, true, CacheMode.ReadOldWriteNew⟩
        dupHeaderReq ⟨false, none, none⟩ (UpstreamResult.err "down")
      = .ok
        { response :=
            { status := 418, version := "HTTP/1.1", headers := [],
              body := utf8Encode ("provider-proxy: Duplicate header: "
                ++ (findDuplicateHeader dupHeaderReq.headers).getD "") },
          cacheLookup := false, forwarded := false, written := none } :=
  ⟨by decide, by decide,
   (c8_duplicate_gate 0 ⟨"request_cache", true, true, true, CacheMode.ReadOldWriteNew⟩
     dupHeaderReq ⟨false, none, none⟩ (UpstreamResult.err "down")
     (by decide) (by decide)).2.2⟩

/-- C9 (implicit): with both `sanitize_bearer_auth` and
`sanitize_aws_sigv4` enabled, any request that carries an
`Authorization` header and sanitizes successfully ends up with
`Authorization: TENSORZERO_PROVIDER_PROXY_TOKEN` in the request that is
serialized and hashed, whatever the original scheme, because the AWS
SigV4 sanitizer runs after the bearer one and overwrites every present
header of its list for all hosts. (Requests reaching `check_cache` have
no duplicate header names, by the duplicate-header gate.) -/
theorem c9_sanitizer_interaction (args : Args) (r s : Request)
    (hnd : (r.headers.map Prod.fst).Nodup)
    (hbearer : args.sanitize_bearer_auth = true)
    (haws : args.sanitize_aws_sigv4 = true)
    (hok : sanitizeRequest args r = .ok s)
    (hauth : containsHeader r.headers "authorization" = true) :
    getHeader s.headers "authorization" = some proxyToken ∧
    awsHeaderNames.all (fun n =>
      !containsHeader r.headers n || (getHeader s.headers n == some proxyToken)) = true := by
  have hsh : sanitizeHeaders args r.headers = .ok s.headers := by
    rw [sanitizeRequest] at hok
    rcases hx : sanitizeHeaders args r.headers with e | t
    · rw [hx] at hok; simp at hok
    · rw [hx] at hok
      simp only [Except.ok.injEq] at hok
      rw [← hok]
  obtain ⟨h1, h2⟩ := sanitizeHeaders_aws_aux args r.headers s.headers hnd hbearer haws hsh hauth
  refine ⟨h1, ?_⟩
  rw [List.all_eq_true]
  intro n hn
  by_cases hc : containsHeader r.headers n = true
  · have := h2 n (by simpa using hn) hc
    simp [this]
  · simp only [Bool.not_eq_true] at hc
    simp [hc]

/-- C9 witness: a `Basic` authorization and a `User-Agent` both become
the fixed token under the default sanitizers. -/
theorem c9_sanitizer_interaction_witness :
    (awsReq.headers.map Prod.fst).Nodup ∧
    sanitizeRequest ⟨"request_cache", true, true, true, CacheMode.ReadOldWriteNew⟩ awsReq
      = .ok awsReqSanitized ∧
    containsHeader awsReq.headers "authorization" = true ∧
    getHeader awsReqSanitized.headers "authorization" = some proxyToken :=
  ⟨by decide, by rfl, by decide,
   (c9_sanitizer_interaction ⟨"request_cache", true, true, true, CacheMode.ReadOldWriteNew⟩
     awsReq awsReqSanitized (by decide) rfl rfl (by rfl) (by decide)).1⟩

/-- C10 (implicit): `deserialize_option_u64` yields `none` exactly on
JSON `null`, `some n` on a u64 number or a string parsing as a u64, and
an error on the empty string or any non-numeric string — unlike
`deserialize_optional_json_string`, which maps both `null` and the
empty string to `none`. -/
theorem c10_option_u64 :
    (∀ v : JsonVal, deserialize_option_u64 v = .ok none ↔ v = .null) ∧
    (∀ n : Nat, n < 18446744073709551616 →
      deserialize_option_u64 (.num (Int.ofNat n)) = .ok (some n)) ∧
    (∀ s n, parseU64 s = some n → deserialize_option_u64 (.str s) = .ok (some n)) ∧
    (∀ s, parseU64 s = none → (deserialize_option_u64 (.str s)).isOk = false) ∧
    (∀ {α : Type} (fromStr : String → Except String α),
      deserialize_optional_json_string fromStr .null = .ok none ∧
      deserialize_optional_json_string fromStr (.str "") = .ok none) := by
  refine ⟨?_, ?_, ?_, ?_, ?_⟩
  · intro v
    constructor
    · intro h
      cases v with
      | null => rfl
      | bool b => simp [deserialize_option_u64] at h
      | num n =>
        rw [deserialize_option_u64] at h
        split at h <;> simp at h
      | str s =>
        rw [deserialize_option_u64] at h
        split at h
        · simp at h
        · split at h <;> simp at h
      | arr xs => simp [deserialize_option_u64] at h
      | obj kvs => simp [deserialize_option_u64] at h
    · intro h
      rw [h]
      rfl
  · intro n hn
    rw [deserialize_option_u64]
    have hrange : (0 : Int) ≤ Int.ofNat n ∧ Int.ofNat n < 18446744073709551616 := by
      constructor
      · exact Int.ofNat_nonneg n
      · rw [Int.ofNat_eq_natCast]
        exact_mod_cast hn
    rw [if_pos hrange]
    simp
  · intro s n hp
    rw [deserialize_option_u64]
    have hne : ¬ s.isEmpty = true := by
      intro he
      rw [(String.isEmpty_iff s).mp he] at hp
      simp [parseU64] at hp
    rw [if_neg hne, hp]
  · intro s hp
    rw [deserialize_option_u64]
    split
    · simp [Except.isOk, Except.toBool]
    · rw [hp]
      simp [Except.isOk, Except.toBool]
  · intro α fromStr
    exact ⟨rfl, rfl⟩

/-- C10 witness: concrete values for each behaviour. -/
theorem c10_option_u64_witness :
    deserialize_option_u64 JsonVal.null = .ok none ∧
    deserialize_option_u64 (.num (Int.ofNat 1234567890)) = .ok (some 1234567890) ∧
    parseU64 "77" = some 77 ∧
    deserialize_option_u64 (.str "77") = .ok (some 77) ∧
    parseU64 "" = none ∧
    (deserialize_option_u64 (.str "")).isOk = false ∧
    parseU64 "abc" = none ∧
    (deserialize_option_u64 (.str "abc")).isOk = false ∧
    deserialize_optional_json_string (fun s : String => (Except.ok s : Except String String))
        JsonVal.null = .ok none ∧
    deserialize_optional_json_string (fun s : String => (Except.ok s : Except String String))
        (JsonVal.str "") = .ok none :=
  ⟨(c10_option_u64.1 JsonVal.null).mpr rfl,
   c10_option_u64.2.1 1234567890 (by norm_num),
   by decide,
   c10_option_u64.2.2.1 "77" 77 (by decide),
   by decide,
   c10_option_u64.2.2.2.1 "" (by decide),
   by decide,
   c10_option_u64.2.2.2.1 "abc" (by decide),
   (c10_option_u64.2.2.2.2 (fun s : String => (Except.ok s : Except String String))).1,
   (c10_option_u64.2.2.2.2 (fun s : String => (Except.ok s : Except String String))).2⟩

/-- C1 (amended): for two requests without duplicated header names (the
duplicate-header gate guarantees this for every request reaching
`check_cache`) that differ only in sanitized header values per the
enabled flags, and whose key computations both succeed, `check_cache`
computes the identical cache key and on-disk filename. (As stated over
arbitrary requests the claim fails: with duplicated `Authorization`
headers only the first value is sanitized, and a sanctioned difference
can make one computation panic while the other succeeds.) -/
theorem c1_key_stability (args : Args) (r1 r2 : Request)
    (hnd : (r1.headers.map Prod.fst).Nodup)
    (hrel : headersRelB args r1.headers r2.headers = true)
    (hm : r1.method = r2.method) (hu : r1.uri = r2.uri)
    (hv : r1.version = r2.version) (hb : r1.body = r2.body)
    (h1 : (cacheFilename args r1).isOk = true)
    (h2 : (cacheFilename args r2).isOk = true) :
    cacheFilename args r1 = cacheFilename args r2 := by
  obtain ⟨t1, host1, hok1, hhost1, heq1⟩ := cacheFilename_isOk_inv args r1 h1
  obtain ⟨t2, host2, hok2, hhost2, heq2⟩ := cacheFilename_isOk_inv args r2 h2
  have hfst := headersRelB_fst args r1.headers r2.headers hrel
  have hnd2 : (r2.headers.map Prod.fst).Nodup := hfst ▸ hnd
  have ht1 := sanitizeHeaders_char args r1.headers t1 hnd hok1
  have ht2 := sanitizeHeaders_char args r2.headers t2 hnd2 hok2
  have htt : t1 = t2 := by
    rw [ht1, ht2, headersRelB_map_sanitizePos args _ _ hrel]
  have hhost : host1 = host2 := by
    rw [hu, hhost2] at hhost1
    exact (Option.some_injective _ hhost1).symm
  have hreq : ({ r1 with headers := t1, extensions := [] } : Request)
      = { r2 with headers := t2, extensions := [] } := by
    rw [htt, hm, hu, hv, hb]
  rw [heq1, heq2, hreq, hhost]

/-- C1 witness: two requests differing only in the Bearer token, under
the default arguments, map to the same filename. -/
theorem c1_key_stability_witness :
    (keyStabilityReqA.headers.map Prod.fst).Nodup ∧
    headersRelB keyStabilityArgs keyStabilityReqA.headers keyStabilityReqB.headers = true ∧
    keyStabilityReqA.method = keyStabilityReqB.method ∧
    keyStabilityReqA.uri = keyStabilityReqB.uri ∧
    keyStabilityReqA.version = keyStabilityReqB.version ∧
    keyStabilityReqA.body = keyStabilityReqB.body ∧
    (cacheFilename keyStabilityArgs keyStabilityReqA).isOk = true ∧
    (cacheFilename keyStabilityArgs keyStabilityReqB).isOk = true ∧
    cacheFilename keyStabilityArgs keyStabilityReqA
      = cacheFilename keyStabilityArgs keyStabilityReqB :=
  ⟨by decide, by decide, rfl, rfl, rfl, rfl, by decide, by decide,
   c1_key_stability keyStabilityArgs keyStabilityReqA keyStabilityReqB
     (by decide) (by decide) rfl rfl rfl rfl (by decide) (by decide)⟩

set_option maxRecDepth 100000 in
set_option maxHeartbeats 4000000 in
/-- C1 counterexample: with only the bearer sanitizer enabled, two
requests that differ only in the token after `Bearer ` of the second of
two duplicated `Authorization` headers produce different cache keys,
because the sanitizer rewrites only the first value; and with the
default sanitizers, two requests differing only in an AWS-sanctioned
`Authorization` value can make one key computation panic while the
other succeeds. -/
theorem c1_counterexample :
    cacheFilename dupBearerArgs dupBearerReqA
      = Except.ok "h-6d507f003ae8309b96ebee30b3462f5615fef0d27bbcf2fc417f2f89a402ba2c" ∧
    cacheFilename dupBearerArgs dupBearerReqB
      = Except.ok "h-3b1dd7b399ac21406d03c9c9c7dd4325bb3531153314ebdab1d6bed00be3ca55" ∧
    ("h-6d507f003ae8309b96ebee30b3462f5615fef0d27bbcf2fc417f2f89a402ba2c" : String)
      ≠ "h-3b1dd7b399ac21406d03c9c9c7dd4325bb3531153314ebdab1d6bed00be3ca55" ∧
    isPanic (cacheFilename keyStabilityArgs opaqueAuthReq) = true ∧
    (cacheFilename keyStabilityArgs asciiAuthReq).isOk = true := by
  refine ⟨by rfl, by rfl, by decide, by rfl, by rfl⟩
